import Mathlib

/-!
# metrics-server-exporter: the scrape handler

A shallow embedding of `main.go`: the handler struct, `handler.ServeHTTP`
and the wiring done by `main`, together with the parts of the libraries
the handler drives (the labelled gauge vectors of the Prometheus client,
the resource lists of the Kubernetes metrics API, the HTTP response
writer).

Conventions.

* `float64` is a type parameter `F` with a zero (a fresh gauge holds 0);
  a Kubernetes `resource.Quantity` is a type parameter `Q`; the conversion
  `AsApproximateFloat64` and the text encoder of `promhttp` are fields of
  `Lib`, so every theorem holds for whatever these library functions
  compute.
* A Go `string` is a sequence of bytes. The names the upstream sends (nodes,
  namespaces, pods, containers) are `GoString`, and the UTF-8 check the
  gauge vectors run on every label value is `ValidString`. Texts the handler
  only passes on or compares with its own literals (label names, resource
  names, error texts, help texts, the response body) are `String`.
* A `panic` is `Except.error`, and it carries the handler as it stands at
  that moment: what a request wrote to the gauges before it panicked stays
  written. A handler that returns writes its response into the
  `ResponseWriter` it was given; one that panics writes none.
* The gauges are process-wide objects reached through pointers. Here they
  are fields of the handler value, and `ServeHTTP` returns the handler as it
  stands when the request is over.
-/

set_option autoImplicit false

namespace MetricsServerExporter

/-! ## Library data -/

/-- Go `error`, seen through its method `Error()`. -/
structure GoError where
  Error : String
deriving DecidableEq, Repr

/-- A byte. -/
abbrev Byte := Fin 256

/-- A Go `string`: any sequence of bytes. -/
abbrev GoString := List Byte

/-- The Go string of a text made of ASCII characters (one byte per character; sample data
only). -/
def GoString.ofASCII (s : String) : GoString :=
  s.toList.map (fun c => Fin.ofNat c.toNat)

/-- Go's table `first` of package `unicode/utf8`, for a byte from 0x80 up: the ranges the
following bytes of the sequence must lie in, or nothing for an illegal starter byte. -/
def first (b : Byte) : Option (List (Byte × Byte)) :=
  if b < 0xC2 then none
  else if b ≤ 0xDF then some [(0x80, 0xBF)]
  else if b = 0xE0 then some [(0xA0, 0xBF), (0x80, 0xBF)]
  else if b ≤ 0xEC then some [(0x80, 0xBF), (0x80, 0xBF)]
  else if b = 0xED then some [(0x80, 0x9F), (0x80, 0xBF)]
  else if b ≤ 0xEF then some [(0x80, 0xBF), (0x80, 0xBF)]
  else if b = 0xF0 then some [(0x90, 0xBF), (0x80, 0xBF), (0x80, 0xBF)]
  else if b ≤ 0xF3 then some [(0x80, 0xBF), (0x80, 0xBF), (0x80, 0xBF)]
  else if b = 0xF4 then some [(0x80, 0x8F), (0x80, 0xBF), (0x80, 0xBF)]
  else none

/-- The scan of `utf8.ValidString`, byte by byte: `pending` holds the ranges of the bytes
still owed to the sequence that has been opened. -/
def validFrom : List (Byte × Byte) → GoString → Bool
  | [], [] => true
  | _ :: _, [] => false
  | (lo, hi) :: pending, c :: rest =>
    if c < lo ∨ hi < c then false else validFrom pending rest
  | [], b :: rest =>
    if b < 0x80 then validFrom [] rest
    else
      match first b with
      | none => false
      | some ranges => validFrom ranges rest

/-- Go's `utf8.ValidString`. -/
def ValidString (s : GoString) : Bool :=
  validFrom [] s

/-- The errors of `GetMetricWith`. -/
inductive LabelError where
  | inconsistentCardinality
  | invalidUTF8
  | missingLabelName (label : String)
deriving DecidableEq, Repr

/-- The type `prometheus.Labels`, a Go `map[string]string` from label name to label value. -/
abbrev Labels := List (String × GoString)

/-- Label values of one series, in the order the vector declares its label names. -/
abbrev LabelValues := List GoString

/-- The children of a metric vector: one value per label-value tuple. -/
abbrev MetricMap (F : Type) := List (LabelValues × F)

/-- Go map read `labels[name]`. -/
def Labels.get? (labels : Labels) (name : String) : Option GoString :=
  match labels with
  | [] => none
  | (n, v) :: rest => if n = name then some v else Labels.get? rest name

/-- Value stored for the label-value tuple `k`, if the vector has such a child. -/
def MetricMap.lookup {F : Type} (k : LabelValues) : MetricMap F → Option F
  | [] => none
  | (k', v) :: m => if k' = k then some v else MetricMap.lookup k m

/-- Label-value tuples that have a child. -/
def MetricMap.keys {F : Type} (m : MetricMap F) : List LabelValues :=
  m.map Prod.fst

/-- The library's `getOrCreateMetricWithLabelValues`: an existing child is kept as it is,
a missing one is created holding 0. -/
def MetricMap.getOrCreate {F : Type} [Zero F] (k : LabelValues) : MetricMap F → MetricMap F
  | [] => [(k, 0)]
  | (k', v) :: m => if k' = k then (k', v) :: m else (k', v) :: MetricMap.getOrCreate k m

/-- Writing `x` into the child at `k` (what `Gauge.Set` does to the child it was called on). -/
def MetricMap.store {F : Type} (k : LabelValues) (x : F) : MetricMap F → MetricMap F
  | [] => []
  | (k', v) :: m => if k' = k then (k', x) :: m else (k', v) :: MetricMap.store k x m

/-- The type `prometheus.GaugeVec`: the options it was created with, its declared label names,
and its children. -/
structure GaugeVec (F : Type) where
  Name : String
  Help : String
  variableLabels : List String
  metrics : MetricMap F

/-- The constructor `promauto.NewGaugeVec(prometheus.GaugeOpts{Name, Help}, labelNames)`. -/
def NewGaugeVec {F : Type} (Name Help : String) (labelNames : List String) : GaugeVec F :=
  { Name := Name, Help := Help, variableLabels := labelNames, metrics := [] }

/-- The library's `validateValuesInLabels`: the number of labels supplied must be the number
declared, and every label value must be valid UTF-8. -/
def validateValuesInLabels (labels : Labels) (expectedNumberOfValues : Nat) :
    Except LabelError Unit :=
  if labels.length ≠ expectedNumberOfValues then
    .error .inconsistentCardinality
  else if labels.all (fun nv => ValidString nv.2) then
    .ok ()
  else
    .error .invalidUTF8

/-- The loop of the library's `hashLabels`: every declared label name is read from the
supplied map, a missing name is an error. -/
def labelValuesInOrder (labels : Labels) : List String → Except LabelError LabelValues
  | [] => .ok []
  | label :: rest =>
    match labels.get? label with
    | none => .error (.missingLabelName label)
    | some val =>
      match labelValuesInOrder labels rest with
      | .error e => .error e
      | .ok vals => .ok (val :: vals)

/-- The method `GaugeVec.GetMetricWith`: the checks above, then the child for the label values
is fetched or created. The result is the vector and the key of the child; on an error the
vector is as it was. -/
def GaugeVec.GetMetricWith {F : Type} [Zero F] (v : GaugeVec F) (labels : Labels) :
    Except LabelError (GaugeVec F × LabelValues) :=
  match validateValuesInLabels labels v.variableLabels.length with
  | .error e => .error e
  | .ok () =>
    match labelValuesInOrder labels v.variableLabels with
    | .error e => .error e
    | .ok k => .ok ({ v with metrics := v.metrics.getOrCreate k }, k)

/-- The method `GaugeVec.With`: as `GetMetricWith`, and an error is a panic with that
error. -/
def GaugeVec.With {F : Type} [Zero F] (v : GaugeVec F) (labels : Labels) :
    Except LabelError (GaugeVec F × LabelValues) :=
  v.GetMetricWith labels

/-- The method `Gauge.Set` on the child `k` of the vector. -/
def GaugeVec.Set {F : Type} (v : GaugeVec F) (k : LabelValues) (x : F) : GaugeVec F :=
  { v with metrics := v.metrics.store k x }

/-- Format of a quantity (`resource.DecimalSI`, `resource.BinarySI`). -/
inductive Format where
  | DecimalSI
  | BinarySI
deriving DecidableEq, Repr

/-- The library functions whose results the handler only passes on. -/
structure Lib (Q F R : Type) where
  /-- The method `(*resource.Quantity).AsApproximateFloat64`. -/
  AsApproximateFloat64 : Q → F
  /-- The empty quantity `resource.Quantity{Format: f}`. -/
  emptyQuantity : Format → Q
  /-- Text exposition that the `promhttp` handler (OpenMetrics enabled) produces for a request
  from the metric families gathered from the registry. -/
  encode : R → List (GaugeVec F) → String

/-- The type `v1.ResourceList`, a Go map from resource name to quantity. -/
abbrev ResourceList (Q : Type) := List (String × Q)

/-- The method `ResourceList.Name`: the quantity stored under `name`, or an empty quantity. -/
def ResourceList.Name {Q F R : Type} (lib : Lib Q F R) (rl : ResourceList Q) (name : String)
    (defaultFormat : Format) : Q :=
  match rl with
  | [] => lib.emptyQuantity defaultFormat
  | (n, q) :: rest => if n = name then q else ResourceList.Name lib rest name defaultFormat

/-- The method `ResourceList.Cpu`. -/
def ResourceList.Cpu {Q F R : Type} (lib : Lib Q F R) (rl : ResourceList Q) : Q :=
  ResourceList.Name lib rl "cpu" Format.DecimalSI

/-- The method `ResourceList.Memory`. -/
def ResourceList.Memory {Q F R : Type} (lib : Lib Q F R) (rl : ResourceList Q) : Q :=
  ResourceList.Name lib rl "memory" Format.BinarySI

/-- The type `v1beta1.NodeMetrics`, the fields the handler reads. -/
structure NodeMetrics (Q : Type) where
  Name : GoString
  Usage : ResourceList Q

/-- The type `v1beta1.NodeMetricsList`. -/
structure NodeMetricsList (Q : Type) where
  Items : List (NodeMetrics Q)

/-- The type `v1beta1.ContainerMetrics`. -/
structure ContainerMetrics (Q : Type) where
  Name : GoString
  Usage : ResourceList Q

/-- The type `v1beta1.PodMetrics`, the fields the handler reads. -/
structure PodMetrics (Q : Type) where
  Name : GoString
  Namespace : GoString
  Containers : List (ContainerMetrics Q)

/-- The type `v1beta1.PodMetricsList`. -/
structure PodMetricsList (Q : Type) where
  Items : List (PodMetrics Q)

/-- A request sent to the metrics API. -/
inductive ApiCall where
  | NodeMetricsesList
  | PodMetricsesList (ns : String)
deriving DecidableEq, Repr

/-- The metrics client: what the upstream answers to each of the two list requests, and the
requests sent so far. -/
structure Clientset (Q : Type) where
  nodes : Except GoError (NodeMetricsList Q)
  pods : String → Except GoError (PodMetricsList Q)
  calls : List ApiCall

/-- The call `clientset.MetricsV1beta1().NodeMetricses().List(ctx, v1.ListOptions{})`. -/
def Clientset.NodeMetricsesList {Q : Type} (c : Clientset Q) :
    Except GoError (NodeMetricsList Q) × Clientset Q :=
  (c.nodes, { c with calls := c.calls ++ [ApiCall.NodeMetricsesList] })

/-- The call `clientset.MetricsV1beta1().PodMetricses(ns).List(ctx, v1.ListOptions{})`. -/
def Clientset.PodMetricsesList {Q : Type} (c : Clientset Q) (ns : String) :
    Except GoError (PodMetricsList Q) × Clientset Q :=
  (c.pods ns, { c with calls := c.calls ++ [ApiCall.PodMetricsesList ns] })

/-- The type `http.ResponseWriter`: the status line once it is fixed, and the body written. -/
structure ResponseWriter where
  status : Option Nat
  body : String
deriving DecidableEq, Repr

/-- The writer the HTTP server hands to a handler: nothing written yet. -/
def ResponseWriter.fresh : ResponseWriter :=
  { status := none, body := "" }

/-- The method `WriteHeader`: fixes the status unless it is fixed already. -/
def ResponseWriter.WriteHeader (w : ResponseWriter) (code : Nat) : ResponseWriter :=
  match w.status with
  | none => { w with status := some code }
  | some _ => w

/-- The method `Write`: a first write without a status fixes 200; the bytes go to the body. -/
def ResponseWriter.Write (w : ResponseWriter) (bytes : String) : ResponseWriter :=
  let w1 := w.WriteHeader 200
  { w1 with body := w1.body ++ bytes }

/-! ## The program -/

/-- The four gauge fields of the handler, as the registry refers to them. -/
inductive GaugeRef where
  | nodeCPUGauge
  | nodeMemoryGauge
  | containerCPUGauge
  | containerMemoryGauge
deriving DecidableEq, Repr

/-- The struct `handler`. The registry holds references to the collectors registered with
it. -/
structure handler (Q F : Type) where
  registry : List GaugeRef
  clientset : Clientset Q
  nodeCPUGauge : GaugeVec F
  nodeMemoryGauge : GaugeVec F
  containerCPUGauge : GaugeVec F
  containerMemoryGauge : GaugeVec F

/-- The gauge a registry entry points to. -/
def handler.deref {Q F : Type} (h : handler Q F) : GaugeRef → GaugeVec F
  | .nodeCPUGauge => h.nodeCPUGauge
  | .nodeMemoryGauge => h.nodeMemoryGauge
  | .containerCPUGauge => h.containerCPUGauge
  | .containerMemoryGauge => h.containerMemoryGauge

/-- The method `Registry.Gather`: the current state of every registered collector. -/
def handler.Gather {Q F : Type} (h : handler Q F) : List (GaugeVec F) :=
  h.registry.map h.deref

/-- The handler `promhttp.HandlerFor(registry, opts)` serving a request: the gathered
families are encoded and written; no status is set before the write. -/
def promhttpServeHTTP {Q F R : Type} (lib : Lib Q F R) (h : handler Q F)
    (writer : ResponseWriter) (request : R) : ResponseWriter :=
  writer.Write (lib.encode request h.Gather)

/-- A panic raised by a `With` call of the handler: the error, and the handler as it
stands at that moment. The HTTP server recovers the panic and drops the connection. -/
structure Panic (Q F : Type) where
  err : LabelError
  h : handler Q F

/-- Body of the loop over `nodeMetrics.Items` (main.go 31-39). -/
def nodeStep {Q F R : Type} [Zero F] (lib : Lib Q F R) (h : handler Q F)
    (node : NodeMetrics Q) : Except (Panic Q F) (handler Q F) :=
  match h.nodeCPUGauge.With [("node", node.Name)] with
  | .error err => .error { err := err, h := h }
  | .ok (v, g) =>
    let h1 := { h with
      nodeCPUGauge := v.Set g (lib.AsApproximateFloat64 (ResourceList.Cpu lib node.Usage)) }
    match h1.nodeMemoryGauge.With [("node", node.Name)] with
    | .error err => .error { err := err, h := h1 }
    | .ok (v, g) =>
      .ok { h1 with
        nodeMemoryGauge :=
          v.Set g (lib.AsApproximateFloat64 (ResourceList.Memory lib node.Usage)) }

/-- Body of the loop over `pod.Containers` (main.go 49-61). -/
def containerStep {Q F R : Type} [Zero F] (lib : Lib Q F R) (pod : PodMetrics Q)
    (h : handler Q F) (container : ContainerMetrics Q) : Except (Panic Q F) (handler Q F) :=
  match h.containerCPUGauge.With
      [("namespace", pod.Namespace), ("pod", pod.Name), ("container", container.Name)] with
  | .error err => .error { err := err, h := h }
  | .ok (v, g) =>
    let h1 := { h with
      containerCPUGauge :=
        v.Set g (lib.AsApproximateFloat64 (ResourceList.Cpu lib container.Usage)) }
    match h1.containerMemoryGauge.With
        [("namespace", pod.Namespace), ("pod", pod.Name), ("container", container.Name)] with
    | .error err => .error { err := err, h := h1 }
    | .ok (v, g) =>
      .ok { h1 with
        containerMemoryGauge :=
          v.Set g (lib.AsApproximateFloat64 (ResourceList.Memory lib container.Usage)) }

/-- Body of the loop over `podMetrics.Items` (main.go 48-62). -/
def podStep {Q F R : Type} [Zero F] (lib : Lib Q F R) (h : handler Q F)
    (pod : PodMetrics Q) : Except (Panic Q F) (handler Q F) :=
  pod.Containers.foldlM (containerStep lib pod) h

/-- The method `handler.ServeHTTP` (main.go 23-69). -/
def handler.ServeHTTP {Q F R : Type} [Zero F] (lib : Lib Q F R) (h : handler Q F)
    (writer : ResponseWriter) (request : R) :
    Except (Panic Q F) (handler Q F × ResponseWriter) :=
  match h.clientset.NodeMetricsesList with
  | (.error err, c) =>
    .ok ({ h with clientset := c }, (writer.WriteHeader 500).Write err.Error)
  | (.ok nodeMetrics, c) =>
    match nodeMetrics.Items.foldlM (nodeStep lib) { h with clientset := c } with
    | .error p => .error p
    | .ok h1 =>
      match h1.clientset.PodMetricsesList "" with
      | (.error err, c) =>
        .ok ({ h1 with clientset := c }, (writer.WriteHeader 500).Write err.Error)
      | (.ok podMetrics, c) =>
        match podMetrics.Items.foldlM (podStep lib) { h1 with clientset := c } with
        | .error p => .error p
        | .ok h2 => .ok (h2, promhttpServeHTTP lib h2 writer request)

/-- The handler as a request leaves it, whether it returned or panicked. -/
def handlerAfter {Q F : Type} :
    Except (Panic Q F) (handler Q F × ResponseWriter) → handler Q F
  | .ok (h, _) => h
  | .error p => p.h

/-- The handler value built in `main` (main.go 86-108): the four gauge vectors with their
names, help texts and label names, all four registered with the registry. -/
def newHandler {Q F : Type} (clientset : Clientset Q) : handler Q F :=
  { clientset := clientset
    registry := [.nodeCPUGauge, .nodeMemoryGauge, .containerCPUGauge, .containerMemoryGauge]
    nodeCPUGauge := NewGaugeVec "kube_metrics_node_cpu"
      "Node CPU usage from kubernetes metrics server" ["node"]
    nodeMemoryGauge := NewGaugeVec "kube_metrics_node_memory"
      "Node memory Usage from kubernetes metrics server" ["node"]
    containerCPUGauge := NewGaugeVec "kube_metrics_container_cpu"
      "Container CPU usage from kubernetes metrics server" ["namespace", "pod", "container"]
    containerMemoryGauge := NewGaugeVec "kube_metrics_container_memory"
      "Container memory usage from kubernetes metrics server" ["namespace", "pod", "container"] }

/-- The function `NewClientSet` (main.go 71-78). The arguments are what
`clientcmd.BuildConfigFromFlags("", "")` returned and the constructor
`metricsv.NewForConfig`. -/
def NewClientSet {Q C : Type} (buildConfigFromFlags : Except GoError C)
    (newForConfig : C → Except GoError (Clientset Q)) : Except GoError (Clientset Q) :=
  match buildConfigFromFlags with
  | .error err => .error err
  | .ok config => newForConfig config

/-- The function `main` up to the point where the server starts (main.go 80-110):
a failure of `NewClientSet` is a panic with that error, otherwise the handler is built and
bound to `/metrics`. -/
def main {Q F C : Type} (buildConfigFromFlags : Except GoError C)
    (newForConfig : C → Except GoError (Clientset Q)) : Except GoError (handler Q F) :=
  match NewClientSet buildConfigFromFlags newForConfig with
  | .error err => .error err
  | .ok clientset => .ok (newHandler clientset)

/-! ## Vocabulary of the statements -/

/-- The handler carries the registry and the label names `main` gave it. Requests change
neither, so every handler value the server ever runs satisfies this. -/
def handler.Wired {Q F : Type} (h : handler Q F) : Prop :=
  h.registry = (newHandler h.clientset : handler Q F).registry ∧
  h.nodeCPUGauge.variableLabels =
    (newHandler h.clientset : handler Q F).nodeCPUGauge.variableLabels ∧
  h.nodeMemoryGauge.variableLabels =
    (newHandler h.clientset : handler Q F).nodeMemoryGauge.variableLabels ∧
  h.containerCPUGauge.variableLabels =
    (newHandler h.clientset : handler Q F).containerCPUGauge.variableLabels ∧
  h.containerMemoryGauge.variableLabels =
    (newHandler h.clientset : handler Q F).containerMemoryGauge.variableLabels

instance {Q F : Type} (h : handler Q F) : Decidable h.Wired := by
  unfold handler.Wired
  infer_instance

/-- One `With(...).Set(x)` on the children of a vector. -/
def MetricMap.put {F : Type} [Zero F] (k : LabelValues) (x : F) (m : MetricMap F) :
    MetricMap F :=
  (m.getOrCreate k).store k x

/-- A sequence of `With(...).Set(x)` calls, in order. -/
def MetricMap.putAll {F : Type} [Zero F] (ws : List (LabelValues × F)) (m : MetricMap F) :
    MetricMap F :=
  ws.foldl (fun acc w => acc.put w.1 w.2) m

/-- Value of the last write to `k` in a sequence of writes, if there is one. -/
def lastWrite {F : Type} (k : LabelValues) : List (LabelValues × F) → Option F
  | [] => none
  | w :: ws =>
    match lastWrite k ws with
    | some v => some v
    | none => if w.1 = k then some w.2 else none

/-- CPU usage of a node entry as the handler converts it. -/
def NodeMetrics.cpu {Q F R : Type} (lib : Lib Q F R) (node : NodeMetrics Q) : F :=
  lib.AsApproximateFloat64 (ResourceList.Cpu lib node.Usage)

/-- Memory usage of a node entry as the handler converts it. -/
def NodeMetrics.memory {Q F R : Type} (lib : Lib Q F R) (node : NodeMetrics Q) : F :=
  lib.AsApproximateFloat64 (ResourceList.Memory lib node.Usage)

/-- CPU usage of a container entry as the handler converts it. -/
def ContainerMetrics.cpu {Q F R : Type} (lib : Lib Q F R) (c : ContainerMetrics Q) : F :=
  lib.AsApproximateFloat64 (ResourceList.Cpu lib c.Usage)

/-- Memory usage of a container entry as the handler converts it. -/
def ContainerMetrics.memory {Q F R : Type} (lib : Lib Q F R) (c : ContainerMetrics Q) : F :=
  lib.AsApproximateFloat64 (ResourceList.Memory lib c.Usage)

/-- Label-value tuples of the node entries, in iteration order. -/
def nodeKeys {Q : Type} (items : List (NodeMetrics Q)) : List LabelValues :=
  items.map (fun node => [node.Name])

/-- Label-value tuple of one container of one pod. -/
def containerKey {Q : Type} (pod : PodMetrics Q) (c : ContainerMetrics Q) : LabelValues :=
  [pod.Namespace, pod.Name, c.Name]

/-- Label-value tuples of all containers of all pods, in pod-then-container order. -/
def containerKeys {Q : Type} (pods : List (PodMetrics Q)) : List LabelValues :=
  pods.flatMap (fun pod => pod.Containers.map (containerKey pod))

/-- Writes of the node loop to the node-CPU gauge, in iteration order. -/
def nodeCPUWrites {Q F R : Type} (lib : Lib Q F R) (items : List (NodeMetrics Q)) :
    List (LabelValues × F) :=
  items.map (fun node => ([node.Name], node.cpu lib))

/-- Writes of the node loop to the node-memory gauge, in iteration order. -/
def nodeMemoryWrites {Q F R : Type} (lib : Lib Q F R) (items : List (NodeMetrics Q)) :
    List (LabelValues × F) :=
  items.map (fun node => ([node.Name], node.memory lib))

/-- Writes of the pod loop to the container-CPU gauge, in iteration order. -/
def containerCPUWrites {Q F R : Type} (lib : Lib Q F R) (pods : List (PodMetrics Q)) :
    List (LabelValues × F) :=
  pods.flatMap (fun pod => pod.Containers.map (fun c => (containerKey pod c, c.cpu lib)))

/-- Writes of the pod loop to the container-memory gauge, in iteration order. -/
def containerMemoryWrites {Q F R : Type} (lib : Lib Q F R) (pods : List (PodMetrics Q)) :
    List (LabelValues × F) :=
  pods.flatMap (fun pod => pod.Containers.map (fun c => (containerKey pod c, c.memory lib)))

/-- The handler after the given writes to the two node gauges. -/
def handler.writeNodes {Q F : Type} [Zero F] (h : handler Q F)
    (cpu mem : List (LabelValues × F)) : handler Q F :=
  { h with
    nodeCPUGauge := { h.nodeCPUGauge with
      metrics := MetricMap.putAll cpu h.nodeCPUGauge.metrics }
    nodeMemoryGauge := { h.nodeMemoryGauge with
      metrics := MetricMap.putAll mem h.nodeMemoryGauge.metrics } }

/-- The handler after the given writes to the two container gauges. -/
def handler.writeContainers {Q F : Type} [Zero F] (h : handler Q F)
    (cpu mem : List (LabelValues × F)) : handler Q F :=
  { h with
    containerCPUGauge := { h.containerCPUGauge with
      metrics := MetricMap.putAll cpu h.containerCPUGauge.metrics }
    containerMemoryGauge := { h.containerMemoryGauge with
      metrics := MetricMap.putAll mem h.containerMemoryGauge.metrics } }

/-- No `With` call for this node entry panics on its label value. -/
def validNode {Q : Type} (node : NodeMetrics Q) : Bool :=
  ValidString node.Name

/-- No `With` call for this container of this pod panics on its label values. -/
def validContainer {Q : Type} (pod : PodMetrics Q) (c : ContainerMetrics Q) : Bool :=
  ValidString pod.Namespace && ValidString pod.Name && ValidString c.Name

/-- Every listed node name is valid UTF-8. -/
def nodesValid {Q : Type} (items : List (NodeMetrics Q)) : Bool :=
  items.all validNode

/-- Every namespace, pod name and container name of a listed container is valid UTF-8. -/
def podsValid {Q : Type} (pods : List (PodMetrics Q)) : Bool :=
  pods.all (fun pod => pod.Containers.all (validContainer pod))

/-- The node entries the node loop gets through: those before the first entry whose name
is not valid UTF-8. -/
def reachedNodes {Q : Type} (items : List (NodeMetrics Q)) : List (NodeMetrics Q) :=
  items.takeWhile validNode

/-- The pods and containers the pod loop gets through: those before the first container
that has a label value which is not valid UTF-8, in pod-then-container order. -/
def reachedPods {Q : Type} : List (PodMetrics Q) → List (PodMetrics Q)
  | [] => []
  | pod :: rest =>
    if pod.Containers.all (validContainer pod) then pod :: reachedPods rest
    else [{ pod with Containers := pod.Containers.takeWhile (validContainer pod) }]

/-- The node entries a request writes, given what the upstream answers. -/
def scrapedNodes {Q : Type} (c : Clientset Q) : List (NodeMetrics Q) :=
  match c.nodes with
  | .ok nodeMetrics => reachedNodes nodeMetrics.Items
  | .error _ => []

/-- The pods and containers a request writes, given what the upstream answers: none unless
the node loop ran to its end. -/
def scrapedPods {Q : Type} (c : Clientset Q) : List (PodMetrics Q) :=
  match c.nodes with
  | .ok nodeMetrics =>
    if nodesValid nodeMetrics.Items then
      match c.pods "" with
      | .ok podMetrics => reachedPods podMetrics.Items
      | .error _ => []
    else []
  | .error _ => []

/-- The handler once the given requests have been sent to the metrics API. -/
def handler.called {Q F : Type} (h : handler Q F) (calls : List ApiCall) : handler Q F :=
  { h with clientset := { h.clientset with calls := h.clientset.calls ++ calls } }

/-! ## Sample data

Quantities and gauge values are rationals here and the conversion is the identity. -/

/-- Sample library functions: identity conversion, empty quantity 0, and an encoder that
lists the family names. -/
def demoLib : Lib ℚ ℚ Unit :=
  { AsApproximateFloat64 := fun q => q
    emptyQuantity := fun _ => 0
    encode := fun _ families => String.intercalate "," (families.map (fun g => g.Name)) }

/-- The node `worker-1` using 2.5 cores and 4e9 bytes. -/
def worker1 : NodeMetrics ℚ :=
  { Name := GoString.ofASCII "worker-1", Usage := [("cpu", 5 / 2), ("memory", 4000000000)] }

/-- The node `worker-2` using 1 core and 2e9 bytes. -/
def worker2 : NodeMetrics ℚ :=
  { Name := GoString.ofASCII "worker-2", Usage := [("cpu", 1), ("memory", 2000000000)] }

/-- The container `main` using 0.1 cores and 1e8 bytes. -/
def mainContainer : ContainerMetrics ℚ :=
  { Name := GoString.ofASCII "main", Usage := [("cpu", 1 / 10), ("memory", 100000000)] }

/-- The pod `default/app-1` with the one container `main`. -/
def app1 : PodMetrics ℚ :=
  { Name := GoString.ofASCII "app-1", Namespace := GoString.ofASCII "default"
    Containers := [mainContainer] }

/-- An upstream that lists `worker-1` and `default/app-1`. -/
def demoUpstream : Clientset ℚ :=
  { nodes := .ok { Items := [worker1] }
    pods := fun _ => .ok { Items := [app1] }
    calls := [] }

/-- The node `worker-1` again, now using 3 cores and 5e9 bytes. -/
def worker1Busy : NodeMetrics ℚ :=
  { Name := GoString.ofASCII "worker-1", Usage := [("cpu", 3), ("memory", 5000000000)] }

/-- An upstream whose node listing fails. -/
def nodesDownUpstream : Clientset ℚ :=
  { nodes := .error { Error := "metrics API unavailable" }
    pods := fun _ => .ok { Items := [app1] }
    calls := [] }

/-- An upstream whose node listing works and whose pod listing fails. -/
def podsDownUpstream : Clientset ℚ :=
  { nodes := .ok { Items := [worker1Busy] }
    pods := fun _ => .error { Error := "pods: forbidden" }
    calls := [] }

/-- The upstream one scrape after `demoUpstream`: `worker-1` and the pod are gone,
`worker-2` has joined. -/
def laterUpstream : Clientset ℚ :=
  { nodes := .ok { Items := [worker2] }
    pods := fun _ => .ok { Items := [] }
    calls := [ApiCall.NodeMetricsesList, ApiCall.PodMetricsesList ""] }

/-- The handler of `main` after one scrape of `demoUpstream`, facing `laterUpstream`. -/
def staleHandler : handler ℚ ℚ :=
  { (newHandler laterUpstream : handler ℚ ℚ) with
    nodeCPUGauge := { (newHandler laterUpstream : handler ℚ ℚ).nodeCPUGauge with
      metrics := [([GoString.ofASCII "worker-1"], 5 / 2)] }
    nodeMemoryGauge := { (newHandler laterUpstream : handler ℚ ℚ).nodeMemoryGauge with
      metrics := [([GoString.ofASCII "worker-1"], 4000000000)] }
    containerCPUGauge := { (newHandler laterUpstream : handler ℚ ℚ).containerCPUGauge with
      metrics :=
        [([GoString.ofASCII "default", GoString.ofASCII "app-1", GoString.ofASCII "main"],
          1 / 10)] }
    containerMemoryGauge :=
      { (newHandler laterUpstream : handler ℚ ℚ).containerMemoryGauge with
        metrics :=
          [([GoString.ofASCII "default", GoString.ofASCII "app-1", GoString.ofASCII "main"],
            100000000)] } }

/-- The stale handler facing an upstream whose node listing fails. -/
def nodesDownHandler : handler ℚ ℚ :=
  { staleHandler with clientset := nodesDownUpstream }

/-- The stale handler facing an upstream whose pod listing fails. -/
def podsDownHandler : handler ℚ ℚ :=
  { staleHandler with clientset := podsDownUpstream }

/-- The three bytes `a`, 0xFF, `b`: not valid UTF-8. -/
def badName : GoString :=
  [0x61, 0xFF, 0x62]

/-- A node entry whose name is `badName`. -/
def badNode : NodeMetrics ℚ :=
  { Name := badName, Usage := [("cpu", 1), ("memory", 1000000000)] }

/-- A container entry whose name is `badName`. -/
def badContainer : ContainerMetrics ℚ :=
  { Name := badName, Usage := [("cpu", 1 / 5), ("memory", 200000000)] }

/-- The pod `default/app-2` with the containers `badName` and `main`, in this order. -/
def app2 : PodMetrics ℚ :=
  { Name := GoString.ofASCII "app-2", Namespace := GoString.ofASCII "default"
    Containers := [badContainer, mainContainer] }

/-- An upstream that lists the node `badName` before `worker-1`, and `default/app-1`. -/
def badNodeUpstream : Clientset ℚ :=
  { nodes := .ok { Items := [badNode, worker1] }
    pods := fun _ => .ok { Items := [app1] }
    calls := [] }

/-- An upstream that lists the node `badName` and whose pod listing fails. -/
def badNodePodsDownUpstream : Clientset ℚ :=
  { nodes := .ok { Items := [badNode] }
    pods := fun _ => .error { Error := "pods: forbidden" }
    calls := [] }

/-- An upstream that lists `worker-1` and the pod `default/app-2`. -/
def badContainerUpstream : Clientset ℚ :=
  { nodes := .ok { Items := [worker1] }
    pods := fun _ => .ok { Items := [app2] }
    calls := [] }

/-- The handler of `main` after one request against the sample upstream. -/
def demoAfterOne : handler ℚ ℚ :=
  handlerAfter ((newHandler demoUpstream : handler ℚ ℚ).ServeHTTP demoLib
    ResponseWriter.fresh ())

/-- The handler of `main` after two requests against the sample upstream. -/
def demoAfterTwo : handler ℚ ℚ :=
  handlerAfter (demoAfterOne.ServeHTTP demoLib ResponseWriter.fresh ())

/-- The stale handler after its request against the later upstream. -/
def staleAfter : handler ℚ ℚ :=
  handlerAfter (staleHandler.ServeHTTP demoLib ResponseWriter.fresh ())

/-! ## The children of a vector under `With(...).Set(...)` -/

section MetricMapLemmas

variable {F : Type}

theorem MetricMap.lookup_store_self (k : LabelValues) (x : F) (m : MetricMap F)
    (hk : k ∈ m.keys) : (m.store k x).lookup k = some x := by
  induction m with
  | nil => simp [MetricMap.keys] at hk
  | cons e m ih =>
    obtain ⟨k1, v⟩ := e
    by_cases h : k1 = k
    · simp [MetricMap.store, MetricMap.lookup, h]
    · have hk1 : k ∈ MetricMap.keys m := by
        simp only [MetricMap.keys, List.map_cons, List.mem_cons] at hk
        rcases hk with hk | hk
        · exact absurd hk.symm h
        · exact hk
      simp [MetricMap.store, MetricMap.lookup, h, ih hk1]

theorem MetricMap.lookup_store_ne (k k1 : LabelValues) (x : F) (m : MetricMap F)
    (hne : k1 ≠ k) : (m.store k x).lookup k1 = m.lookup k1 := by
  induction m with
  | nil => rfl
  | cons e m ih =>
    obtain ⟨k2, v⟩ := e
    by_cases h : k2 = k
    · subst h
      have h2 : ¬ k2 = k1 := fun h2 => hne h2.symm
      simp [MetricMap.store, MetricMap.lookup, h2]
    · by_cases h3 : k2 = k1
      · subst h3
        simp [MetricMap.store, MetricMap.lookup, h]
      · simp [MetricMap.store, MetricMap.lookup, h, h3, ih]

theorem MetricMap.keys_store (k : LabelValues) (x : F) (m : MetricMap F) :
    (m.store k x).keys = m.keys := by
  induction m with
  | nil => rfl
  | cons e m ih =>
    obtain ⟨k1, v⟩ := e
    by_cases h : k1 = k
    · simp [MetricMap.store, MetricMap.keys, h]
    · simp only [MetricMap.keys] at ih
      simp [MetricMap.store, MetricMap.keys, h, ih]

theorem MetricMap.keys_getOrCreate [Zero F] (k : LabelValues) (m : MetricMap F) :
    (m.getOrCreate k).keys = if k ∈ m.keys then m.keys else m.keys ++ [k] := by
  induction m with
  | nil => simp [MetricMap.getOrCreate, MetricMap.keys]
  | cons e m ih =>
    obtain ⟨k1, v⟩ := e
    by_cases h : k1 = k
    · simp [MetricMap.getOrCreate, MetricMap.keys, h]
    · have h2 : ¬ k = k1 := fun h2 => h h2.symm
      simp only [MetricMap.keys] at ih
      by_cases hm : k ∈ List.map Prod.fst m
      · simp [MetricMap.getOrCreate, MetricMap.keys, h, h2, ih, hm]
      · simp [MetricMap.getOrCreate, MetricMap.keys, h, h2, ih, hm]

theorem MetricMap.lookup_getOrCreate_ne [Zero F] (k k1 : LabelValues) (m : MetricMap F)
    (hne : k1 ≠ k) : (m.getOrCreate k).lookup k1 = m.lookup k1 := by
  induction m with
  | nil =>
    have h2 : ¬ k = k1 := fun h2 => hne h2.symm
    simp [MetricMap.getOrCreate, MetricMap.lookup, h2]
  | cons e m ih =>
    obtain ⟨k2, v⟩ := e
    by_cases h : k2 = k
    · simp [MetricMap.getOrCreate, h]
    · by_cases h3 : k2 = k1
      · subst h3
        simp [MetricMap.getOrCreate, MetricMap.lookup, h]
      · simp [MetricMap.getOrCreate, MetricMap.lookup, h, h3, ih]

theorem MetricMap.keys_put [Zero F] (k : LabelValues) (x : F) (m : MetricMap F) :
    (m.put k x).keys = if k ∈ m.keys then m.keys else m.keys ++ [k] := by
  simp [MetricMap.put, MetricMap.keys_store, MetricMap.keys_getOrCreate]

theorem MetricMap.mem_keys_put [Zero F] (k k1 : LabelValues) (x : F) (m : MetricMap F) :
    k1 ∈ (m.put k x).keys ↔ k1 = k ∨ k1 ∈ m.keys := by
  rw [MetricMap.keys_put]
  by_cases hm : k ∈ m.keys
  · simp only [hm, if_true]
    constructor
    · exact fun h => Or.inr h
    · rintro (h | h)
      · exact h ▸ hm
      · exact h
  · simp only [hm, if_false, List.mem_append, List.mem_singleton]
    tauto

theorem MetricMap.lookup_put_self [Zero F] (k : LabelValues) (x : F) (m : MetricMap F) :
    (m.put k x).lookup k = some x := by
  unfold MetricMap.put
  apply MetricMap.lookup_store_self
  rw [MetricMap.keys_getOrCreate]
  by_cases hm : k ∈ m.keys <;> simp [hm]

theorem MetricMap.lookup_put_ne [Zero F] (k k1 : LabelValues) (x : F) (m : MetricMap F)
    (hne : k1 ≠ k) : (m.put k x).lookup k1 = m.lookup k1 := by
  unfold MetricMap.put
  rw [MetricMap.lookup_store_ne _ _ _ _ hne, MetricMap.lookup_getOrCreate_ne _ _ _ hne]

theorem MetricMap.length_put [Zero F] (k : LabelValues) (x : F) (m : MetricMap F) :
    (m.put k x).length = m.length + (if k ∈ m.keys then 0 else 1) := by
  have h := congrArg List.length (MetricMap.keys_put k x m)
  simp only [MetricMap.keys, List.length_map] at h
  rw [h]
  by_cases hm : k ∈ List.map Prod.fst m <;> simp [MetricMap.keys, hm]

theorem lastWrite_eq_none {k : LabelValues} {ws : List (LabelValues × F)} :
    lastWrite k ws = none ↔ k ∉ ws.map Prod.fst := by
  induction ws with
  | nil => simp [lastWrite]
  | cons w ws ih =>
    cases hl : lastWrite k ws with
    | some v =>
      have hm : k ∈ ws.map Prod.fst := by
        by_contra hc
        rw [ih.mpr hc] at hl
        exact Option.noConfusion hl
      simp only [List.map_cons, List.mem_cons, lastWrite, hl]
      constructor
      · intro h
        exact Option.noConfusion h
      · intro h
        exact absurd (Or.inr hm) h
    | none =>
      have hm : k ∉ ws.map Prod.fst := ih.mp hl
      by_cases hk : w.1 = k
      · simp only [List.map_cons, List.mem_cons, lastWrite, hl, hk, if_true]
        constructor
        · intro h
          exact Option.noConfusion h
        · intro h
          exact absurd (Or.inl trivial) h
      · have hk2 : ¬ k = w.1 := fun h => hk h.symm
        simp only [List.map_cons, List.mem_cons, lastWrite, hl, hk, if_false, true_iff]
        rintro (h | h)
        · exact hk2 h
        · exact hm h

theorem lastWrite_append_cons {k : LabelValues} {x : F}
    (pre post : List (LabelValues × F)) (hpost : k ∉ post.map Prod.fst) :
    lastWrite k (pre ++ (k, x) :: post) = some x := by
  induction pre with
  | nil => simp [lastWrite, lastWrite_eq_none.mpr hpost]
  | cons w pre ih => simp [lastWrite, ih]

theorem MetricMap.putAll_cons [Zero F] (w : LabelValues × F) (ws : List (LabelValues × F))
    (m : MetricMap F) : MetricMap.putAll (w :: ws) m = MetricMap.putAll ws (m.put w.1 w.2) :=
  rfl

theorem MetricMap.putAll_append [Zero F] (ws1 ws2 : List (LabelValues × F))
    (m : MetricMap F) :
    MetricMap.putAll (ws1 ++ ws2) m = MetricMap.putAll ws2 (MetricMap.putAll ws1 m) := by
  simp [MetricMap.putAll, List.foldl_append]

/-- After a sequence of writes a child holds the last value written to it, and a child that
was not written holds what it held before. -/
theorem MetricMap.lookup_putAll [Zero F] (k : LabelValues) (ws : List (LabelValues × F))
    (m : MetricMap F) :
    (MetricMap.putAll ws m).lookup k =
      match lastWrite k ws with
      | some v => some v
      | none => m.lookup k := by
  induction ws generalizing m with
  | nil => rfl
  | cons w ws ih =>
    rw [MetricMap.putAll_cons, ih]
    cases hl : lastWrite k ws with
    | some v => simp [lastWrite, hl]
    | none =>
      by_cases hk : w.1 = k
      · subst hk
        simp [lastWrite, hl, MetricMap.lookup_put_self]
      · have hk2 : k ≠ w.1 := fun h => hk h.symm
        simp [lastWrite, hl, hk, MetricMap.lookup_put_ne _ _ _ _ hk2]

theorem MetricMap.mem_keys_putAll [Zero F] (k : LabelValues) (ws : List (LabelValues × F))
    (m : MetricMap F) :
    k ∈ (MetricMap.putAll ws m).keys ↔ k ∈ ws.map Prod.fst ∨ k ∈ m.keys := by
  induction ws generalizing m with
  | nil => simp [MetricMap.putAll]
  | cons w ws ih =>
    rw [MetricMap.putAll_cons, ih, MetricMap.mem_keys_put]
    simp only [List.map_cons, List.mem_cons]
    tauto

/-- Entries are only ever added: the count grows by the number of distinct keys written
that had no child before. -/
theorem MetricMap.length_putAll [Zero F] (ws : List (LabelValues × F)) (m : MetricMap F) :
    (MetricMap.putAll ws m).length =
      m.length + ((ws.map Prod.fst).toFinset \ m.keys.toFinset).card := by
  induction ws generalizing m with
  | nil => simp [MetricMap.putAll]
  | cons w ws ih =>
    rw [MetricMap.putAll_cons, ih, MetricMap.length_put]
    have hkeys : (m.put w.1 w.2).keys.toFinset = insert w.1 m.keys.toFinset := by
      ext a
      simp [MetricMap.mem_keys_put]
    rw [hkeys, List.map_cons, List.toFinset_cons]
    by_cases hm : w.1 ∈ m.keys
    · have hmf : w.1 ∈ m.keys.toFinset := List.mem_toFinset.mpr hm
      rw [Finset.insert_eq_of_mem hmf, Finset.insert_sdiff_of_mem _ hmf]
      simp [hm]
    · have hmf : w.1 ∉ m.keys.toFinset := fun h => hm (List.mem_toFinset.mp h)
      rw [Finset.insert_sdiff_of_not_mem _ hmf]
      have hd : w.1 ∉ (ws.map Prod.fst).toFinset \ insert w.1 m.keys.toFinset := by
        simp
      have he : insert w.1 ((ws.map Prod.fst).toFinset \ m.keys.toFinset) =
          insert w.1 ((ws.map Prod.fst).toFinset \ insert w.1 m.keys.toFinset) := by
        ext a
        simp only [Finset.mem_insert, Finset.mem_sdiff]
        tauto
      rw [he, Finset.card_insert_of_not_mem hd]
      simp only [hm, if_false]
      omega

theorem MetricMap.nodup_keys_put [Zero F] (k : LabelValues) (x : F) (m : MetricMap F)
    (hm : m.keys.Nodup) : (m.put k x).keys.Nodup := by
  rw [MetricMap.keys_put]
  by_cases hk : k ∈ m.keys
  · simpa [hk] using hm
  · simp only [hk, if_false]
    rw [List.nodup_append]
    refine ⟨hm, List.nodup_singleton k, ?_⟩
    intro a ha hb
    rw [List.mem_singleton] at hb
    exact hk (hb ▸ ha)

/-- No tuple ever gets a second child. -/
theorem MetricMap.nodup_keys_putAll [Zero F] (ws : List (LabelValues × F))
    (m : MetricMap F) (hm : m.keys.Nodup) : (MetricMap.putAll ws m).keys.Nodup := by
  induction ws generalizing m with
  | nil => exact hm
  | cons w ws ih =>
    rw [MetricMap.putAll_cons]
    exact ih _ (MetricMap.nodup_keys_put w.1 w.2 m hm)

theorem MetricMap.getOrCreate_of_mem [Zero F] (k : LabelValues) (m : MetricMap F)
    (hk : k ∈ m.keys) : m.getOrCreate k = m := by
  induction m with
  | nil => simp [MetricMap.keys] at hk
  | cons e m ih =>
    obtain ⟨k1, v⟩ := e
    by_cases h : k1 = k
    · simp [MetricMap.getOrCreate, h]
    · have hk1 : k ∈ MetricMap.keys m := by
        simp only [MetricMap.keys, List.map_cons, List.mem_cons] at hk
        rcases hk with hk | hk
        · exact absurd hk.symm h
        · exact hk
      simp [MetricMap.getOrCreate, h, ih hk1]

theorem MetricMap.store_store_same (k : LabelValues) (x y : F) (m : MetricMap F) :
    (m.store k y).store k x = m.store k x := by
  induction m with
  | nil => rfl
  | cons e m ih =>
    obtain ⟨k1, v⟩ := e
    by_cases h : k1 = k
    · simp [MetricMap.store, h]
    · simp [MetricMap.store, h, ih]

theorem MetricMap.store_comm (k k1 : LabelValues) (x y : F) (m : MetricMap F)
    (hne : k ≠ k1) : (m.store k1 y).store k x = (m.store k x).store k1 y := by
  induction m with
  | nil => rfl
  | cons e m ih =>
    obtain ⟨k2, v⟩ := e
    by_cases h : k2 = k
    · subst h
      simp [MetricMap.store, hne]
    · by_cases h1 : k2 = k1
      · subst h1
        simp [MetricMap.store, h]
      · simp [MetricMap.store, h, h1, ih]

theorem MetricMap.store_eq_self (k : LabelValues) (x : F) (m : MetricMap F)
    (hl : m.lookup k = some x) : m.store k x = m := by
  induction m with
  | nil => rfl
  | cons e m ih =>
    obtain ⟨k1, v⟩ := e
    by_cases h : k1 = k
    · subst h
      simp only [MetricMap.lookup, if_true, Option.some.injEq] at hl
      simp [MetricMap.store, hl]
    · simp only [MetricMap.lookup, h, if_false] at hl
      simp [MetricMap.store, h, ih hl]

theorem MetricMap.putAll_eq_foldl_store [Zero F] (ws : List (LabelValues × F))
    (m : MetricMap F) (hk : ∀ k ∈ ws.map Prod.fst, k ∈ m.keys) :
    MetricMap.putAll ws m = ws.foldl (fun acc w => acc.store w.1 w.2) m := by
  induction ws generalizing m with
  | nil => rfl
  | cons w ws ih =>
    have hw : w.1 ∈ m.keys := hk w.1 (by simp)
    have hp : m.put w.1 w.2 = m.store w.1 w.2 := by
      simp [MetricMap.put, MetricMap.getOrCreate_of_mem _ _ hw]
    rw [MetricMap.putAll_cons, hp, List.foldl_cons]
    apply ih
    intro k hkm
    rw [MetricMap.keys_store]
    exact hk k (by simp only [List.map_cons, List.mem_cons]; exact Or.inr hkm)

theorem MetricMap.foldl_store_absorb (k : LabelValues) (x : F)
    (ws : List (LabelValues × F)) (m : MetricMap F) (hk : k ∈ ws.map Prod.fst) :
    ws.foldl (fun acc w => acc.store w.1 w.2) (m.store k x) =
      ws.foldl (fun acc w => acc.store w.1 w.2) m := by
  induction ws generalizing m with
  | nil => simp at hk
  | cons w ws ih =>
    simp only [List.foldl_cons]
    by_cases h : w.1 = k
    · subst h
      rw [MetricMap.store_store_same]
    · have hk1 : k ∈ ws.map Prod.fst := by
        simp only [List.map_cons, List.mem_cons] at hk
        rcases hk with hk | hk
        · exact absurd hk.symm h
        · exact hk
      rw [MetricMap.store_comm _ _ _ _ _ h, ih _ hk1]

theorem MetricMap.foldl_store_fixed (ws : List (LabelValues × F)) (m : MetricMap F)
    (hl : ∀ k v, lastWrite k ws = some v → m.lookup k = some v) :
    ws.foldl (fun acc w => acc.store w.1 w.2) m = m := by
  induction ws generalizing m with
  | nil => rfl
  | cons w ws ih =>
    have hrest : ∀ k v, lastWrite k ws = some v → m.lookup k = some v := by
      intro k v hv
      apply hl
      simp [lastWrite, hv]
    simp only [List.foldl_cons]
    by_cases hw : w.1 ∈ ws.map Prod.fst
    · rw [MetricMap.foldl_store_absorb _ _ _ _ hw]
      exact ih m hrest
    · have hn : lastWrite w.1 ws = none := lastWrite_eq_none.mpr hw
      have hv : m.lookup w.1 = some w.2 := by
        apply hl
        simp [lastWrite, hn]
      rw [MetricMap.store_eq_self _ _ _ hv]
      exact ih m hrest

/-- Replaying a sequence of writes on its own result changes nothing. -/
theorem MetricMap.putAll_putAll [Zero F] (ws : List (LabelValues × F)) (m : MetricMap F) :
    MetricMap.putAll ws (MetricMap.putAll ws m) = MetricMap.putAll ws m := by
  rw [MetricMap.putAll_eq_foldl_store ws (MetricMap.putAll ws m)]
  · apply MetricMap.foldl_store_fixed
    intro k v hv
    rw [MetricMap.lookup_putAll, hv]
  · intro k hk
    exact (MetricMap.mem_keys_putAll k ws m).mpr (Or.inl hk)

end MetricMapLemmas

/-! ## The loops of `ServeHTTP` in closed form -/

theorem Wired_called {Q F : Type} (h : handler Q F) (calls : List ApiCall) (hw : h.Wired) :
    (h.called calls).Wired := hw

theorem called_called {Q F : Type} (h : handler Q F) (a b : List ApiCall) :
    (h.called a).called b = h.called (a ++ b) := by
  simp [handler.called, List.append_assoc]

theorem reachedNodes_of_valid {Q : Type} (items : List (NodeMetrics Q))
    (hv : nodesValid items = true) : reachedNodes items = items := by
  induction items with
  | nil => rfl
  | cons node rest ih =>
    simp only [nodesValid, List.all_cons, Bool.and_eq_true] at hv
    simp only [reachedNodes, List.takeWhile_cons, hv.1, if_true]
    exact congrArg (List.cons node) (ih hv.2)

theorem reachedPods_of_valid {Q : Type} (pods : List (PodMetrics Q))
    (hv : podsValid pods = true) : reachedPods pods = pods := by
  induction pods with
  | nil => rfl
  | cons pod rest ih =>
    simp only [podsValid, List.all_cons, Bool.and_eq_true] at hv
    simp only [reachedPods, hv.1, if_true]
    exact congrArg (List.cons pod) (ih hv.2)

theorem nodesValid_of_forall {Q : Type} (items : List (NodeMetrics Q))
    (hv : ∀ node ∈ items, ValidString node.Name = true) : nodesValid items = true :=
  List.all_eq_true.mpr hv

theorem podsValid_of_forall {Q : Type} (pods : List (PodMetrics Q))
    (hpv : ∀ pod ∈ pods, ∀ c ∈ pod.Containers,
      ValidString pod.Namespace = true ∧ ValidString pod.Name = true ∧
        ValidString c.Name = true) : podsValid pods = true := by
  apply List.all_eq_true.mpr
  intro pod hpod
  apply List.all_eq_true.mpr
  intro c hc
  obtain ⟨a1, a2, a3⟩ := hpv pod hpod c hc
  simp [validContainer, a1, a2, a3]

section ClosedForm

variable {Q F R : Type} [Zero F]

theorem With_node (v : GaugeVec F) (hv : v.variableLabels = ["node"]) (name : GoString) :
    v.With [("node", name)] =
      if ValidString name then
        .ok ({ v with metrics := v.metrics.getOrCreate [name] }, [name])
      else .error .invalidUTF8 := by
  by_cases hn : ValidString name = true
  · simp [GaugeVec.With, GaugeVec.GetMetricWith, hv, validateValuesInLabels,
      labelValuesInOrder, Labels.get?, hn]
  · simp [GaugeVec.With, GaugeVec.GetMetricWith, hv, validateValuesInLabels, hn]

theorem With_container (v : GaugeVec F)
    (hv : v.variableLabels = ["namespace", "pod", "container"]) (ns pod c : GoString) :
    v.With [("namespace", ns), ("pod", pod), ("container", c)] =
      if ValidString ns && ValidString pod && ValidString c then
        .ok ({ v with metrics := v.metrics.getOrCreate [ns, pod, c] }, [ns, pod, c])
      else .error .invalidUTF8 := by
  by_cases hn : (ValidString ns && ValidString pod && ValidString c) = true
  · have hn2 := hn
    simp only [Bool.and_eq_true] at hn2
    simp [GaugeVec.With, GaugeVec.GetMetricWith, hv, validateValuesInLabels,
      labelValuesInOrder, Labels.get?, hn2.1.1, hn2.1.2, hn2.2]
  · rw [if_neg hn]
    have hall : List.all [("namespace", ns), ("pod", pod), ("container", c)]
        (fun nv => ValidString nv.2) = false := by
      simp only [List.all_cons, List.all_nil, Bool.and_true]
      rw [← Bool.and_assoc]
      simpa using hn
    simp [GaugeVec.With, GaugeVec.GetMetricWith, hv, validateValuesInLabels, hall]

theorem Wired_writeNodes (h : handler Q F) (cpu mem : List (LabelValues × F))
    (hw : h.Wired) : (h.writeNodes cpu mem).Wired := hw

theorem Wired_writeContainers (h : handler Q F) (cpu mem : List (LabelValues × F))
    (hw : h.Wired) : (h.writeContainers cpu mem).Wired := hw

theorem writeNodes_writeNodes (h : handler Q F) (a b c d : List (LabelValues × F)) :
    (h.writeNodes a b).writeNodes c d = h.writeNodes (a ++ c) (b ++ d) := by
  simp [handler.writeNodes, MetricMap.putAll_append]

theorem writeContainers_writeContainers (h : handler Q F)
    (a b c d : List (LabelValues × F)) :
    (h.writeContainers a b).writeContainers c d = h.writeContainers (a ++ c) (b ++ d) := by
  simp [handler.writeContainers, MetricMap.putAll_append]

theorem nodeStep_eq (lib : Lib Q F R) (h : handler Q F) (hw : h.Wired)
    (node : NodeMetrics Q) :
    nodeStep lib h node =
      if validNode node then
        .ok (h.writeNodes [([node.Name], node.cpu lib)] [([node.Name], node.memory lib)])
      else .error { err := .invalidUTF8, h := h } := by
  obtain ⟨-, h1, h2, -, -⟩ := hw
  have e1 := With_node h.nodeCPUGauge h1 node.Name
  have e2 := With_node h.nodeMemoryGauge h2 node.Name
  by_cases hv : ValidString node.Name = true
  · simp only [hv, if_true] at e1 e2
    simp only [nodeStep, e1, e2, validNode, hv, if_true]
    rfl
  · simp only [hv] at e1
    simp only [nodeStep, e1, validNode, hv]
    rfl

theorem containerStep_eq (lib : Lib Q F R) (pod : PodMetrics Q) (h : handler Q F)
    (hw : h.Wired) (c : ContainerMetrics Q) :
    containerStep lib pod h c =
      if validContainer pod c then
        .ok (h.writeContainers [(containerKey pod c, c.cpu lib)]
          [(containerKey pod c, c.memory lib)])
      else .error { err := .invalidUTF8, h := h } := by
  obtain ⟨-, -, -, h3, h4⟩ := hw
  have e1 := With_container h.containerCPUGauge h3 pod.Namespace pod.Name c.Name
  have e2 := With_container h.containerMemoryGauge h4 pod.Namespace pod.Name c.Name
  by_cases hv : (ValidString pod.Namespace && ValidString pod.Name && ValidString c.Name)
      = true
  · simp only [hv, if_true] at e1 e2
    simp only [containerStep, e1, e2, validContainer, hv, if_true]
    rfl
  · simp only [hv] at e1
    simp only [containerStep, e1, validContainer, hv]
    rfl

theorem nodeLoop_eq (lib : Lib Q F R) (items : List (NodeMetrics Q)) (h : handler Q F)
    (hw : h.Wired) :
    items.foldlM (nodeStep lib) h =
      if nodesValid items then
        .ok (h.writeNodes (nodeCPUWrites lib items) (nodeMemoryWrites lib items))
      else
        .error { err := .invalidUTF8
                 h := h.writeNodes (nodeCPUWrites lib (reachedNodes items))
                   (nodeMemoryWrites lib (reachedNodes items)) } := by
  induction items generalizing h with
  | nil => rfl
  | cons node rest ih =>
    rw [List.foldlM_cons, nodeStep_eq lib h hw]
    by_cases hv : validNode node = true
    · simp only [hv, if_true, bind, Except.bind]
      rw [ih _ (Wired_writeNodes h _ _ hw)]
      by_cases hr : nodesValid rest = true
      · have hall : nodesValid (node :: rest) = true := by
          simp only [nodesValid, List.all_cons, Bool.and_eq_true]
          exact ⟨hv, hr⟩
        rw [if_pos hr, if_pos hall, writeNodes_writeNodes]
        rfl
      · have hall : ¬ nodesValid (node :: rest) = true := by
          simp only [nodesValid, List.all_cons, Bool.and_eq_true]
          exact fun hc => hr hc.2
        rw [if_neg hr, if_neg hall, writeNodes_writeNodes]
        simp only [reachedNodes, List.takeWhile_cons, hv, if_true]
        rfl
    · have hall : ¬ nodesValid (node :: rest) = true := by
        simp only [nodesValid, List.all_cons, Bool.and_eq_true]
        exact fun hc => hv hc.1
      simp only [hv, bind, Except.bind]
      rw [if_neg hall]
      simp only [reachedNodes, List.takeWhile_cons, hv]
      rfl

theorem containerLoop_eq (lib : Lib Q F R) (pod : PodMetrics Q)
    (cs : List (ContainerMetrics Q)) (h : handler Q F) (hw : h.Wired) :
    cs.foldlM (containerStep lib pod) h =
      if cs.all (validContainer pod) then
        .ok (h.writeContainers (cs.map (fun c => (containerKey pod c, c.cpu lib)))
          (cs.map (fun c => (containerKey pod c, c.memory lib))))
      else
        .error { err := .invalidUTF8
                 h := h.writeContainers
                   ((cs.takeWhile (validContainer pod)).map
                     (fun c => (containerKey pod c, c.cpu lib)))
                   ((cs.takeWhile (validContainer pod)).map
                     (fun c => (containerKey pod c, c.memory lib))) } := by
  induction cs generalizing h with
  | nil => rfl
  | cons c rest ih =>
    rw [List.foldlM_cons, containerStep_eq lib pod h hw]
    by_cases hv : validContainer pod c = true
    · simp only [hv, if_true, bind, Except.bind]
      rw [ih _ (Wired_writeContainers h _ _ hw)]
      by_cases hr : rest.all (validContainer pod) = true
      · have hall : (c :: rest).all (validContainer pod) = true := by
          simp only [List.all_cons, Bool.and_eq_true]
          exact ⟨hv, hr⟩
        rw [if_pos hr, if_pos hall, writeContainers_writeContainers]
        rfl
      · have hall : ¬ (c :: rest).all (validContainer pod) = true := by
          simp only [List.all_cons, Bool.and_eq_true]
          exact fun hc => hr hc.2
        rw [if_neg hr, if_neg hall, writeContainers_writeContainers]
        simp only [List.takeWhile_cons, hv, if_true]
        rfl
    · have hall : ¬ (c :: rest).all (validContainer pod) = true := by
        simp only [List.all_cons, Bool.and_eq_true]
        exact fun hc => hv hc.1
      simp only [hv, bind, Except.bind]
      rw [if_neg hall]
      simp only [List.takeWhile_cons, hv]
      rfl

theorem podLoop_eq (lib : Lib Q F R) (pods : List (PodMetrics Q)) (h : handler Q F)
    (hw : h.Wired) :
    pods.foldlM (podStep lib) h =
      if podsValid pods then
        .ok (h.writeContainers (containerCPUWrites lib pods)
          (containerMemoryWrites lib pods))
      else
        .error { err := .invalidUTF8
                 h := h.writeContainers (containerCPUWrites lib (reachedPods pods))
                   (containerMemoryWrites lib (reachedPods pods)) } := by
  induction pods generalizing h with
  | nil => rfl
  | cons pod rest ih =>
    rw [List.foldlM_cons, podStep, containerLoop_eq lib pod _ h hw]
    by_cases hv : pod.Containers.all (validContainer pod) = true
    · simp only [hv, if_true, bind, Except.bind]
      rw [ih _ (Wired_writeContainers h _ _ hw)]
      by_cases hr : podsValid rest = true
      · have hall : podsValid (pod :: rest) = true := by
          simp only [podsValid, List.all_cons, Bool.and_eq_true]
          exact ⟨hv, hr⟩
        rw [if_pos hr, if_pos hall, writeContainers_writeContainers]
        simp [containerCPUWrites, containerMemoryWrites]
      · have hall : ¬ podsValid (pod :: rest) = true := by
          simp only [podsValid, List.all_cons, Bool.and_eq_true]
          exact fun hc => hr hc.2
        rw [if_neg hr, if_neg hall, writeContainers_writeContainers]
        simp [containerCPUWrites, containerMemoryWrites, reachedPods, hv]
    · have hall : ¬ podsValid (pod :: rest) = true := by
        simp only [podsValid, List.all_cons, Bool.and_eq_true]
        exact fun hc => hv hc.1
      simp only [hv, bind, Except.bind]
      rw [if_neg hall]
      simp [containerCPUWrites, containerMemoryWrites, reachedPods, hv, containerKey]

end ClosedForm

/-! ## Facts about the write sequences -/

section Writes

variable {Q F R : Type}

theorem map_fst_nodeCPUWrites (lib : Lib Q F R) (items : List (NodeMetrics Q)) :
    (nodeCPUWrites lib items).map Prod.fst = nodeKeys items := by
  simp [nodeCPUWrites, nodeKeys]

theorem map_fst_nodeMemoryWrites (lib : Lib Q F R) (items : List (NodeMetrics Q)) :
    (nodeMemoryWrites lib items).map Prod.fst = nodeKeys items := by
  simp [nodeMemoryWrites, nodeKeys]

theorem map_fst_containerCPUWrites (lib : Lib Q F R) (pods : List (PodMetrics Q)) :
    (containerCPUWrites lib pods).map Prod.fst = containerKeys pods := by
  induction pods with
  | nil => rfl
  | cons pod rest ih =>
    simp only [containerCPUWrites, containerKeys, List.flatMap_cons, List.map_append] at ih ⊢
    rw [ih]
    simp

theorem map_fst_containerMemoryWrites (lib : Lib Q F R) (pods : List (PodMetrics Q)) :
    (containerMemoryWrites lib pods).map Prod.fst = containerKeys pods := by
  induction pods with
  | nil => rfl
  | cons pod rest ih =>
    simp only [containerMemoryWrites, containerKeys, List.flatMap_cons, List.map_append] at ih ⊢
    rw [ih]
    simp

theorem mem_nodeKeys {items : List (NodeMetrics Q)} {k : LabelValues} :
    k ∈ nodeKeys items ↔ ∃ node ∈ items, k = [node.Name] := by
  simp only [nodeKeys, List.mem_map]
  constructor
  · rintro ⟨node, hm, rfl⟩
    exact ⟨node, hm, rfl⟩
  · rintro ⟨node, hm, rfl⟩
    exact ⟨node, hm, rfl⟩

theorem mem_containerKeys {pods : List (PodMetrics Q)} {k : LabelValues} :
    k ∈ containerKeys pods ↔
      ∃ pod ∈ pods, ∃ c ∈ pod.Containers, k = [pod.Namespace, pod.Name, c.Name] := by
  simp only [containerKeys, List.mem_flatMap, List.mem_map, containerKey]
  constructor
  · rintro ⟨pod, hp, c, hc, rfl⟩
    exact ⟨pod, hp, c, hc, rfl⟩
  · rintro ⟨pod, hp, c, hc, rfl⟩
    exact ⟨pod, hp, c, hc, rfl⟩

/-- The last write to a node's tuple carries the usage of the last entry with that name. -/
theorem lastWrite_node (f : NodeMetrics Q → F) (pre post : List (NodeMetrics Q))
    (node : NodeMetrics Q) (hpost : ∀ n ∈ post, n.Name ≠ node.Name) :
    lastWrite [node.Name] ((pre ++ node :: post).map (fun n => ([n.Name], f n))) =
      some (f node) := by
  rw [List.map_append, List.map_cons]
  apply lastWrite_append_cons
  simp only [List.map_map, List.mem_map, Function.comp, not_exists, not_and]
  intro n hn heq
  exact hpost n hn (List.cons.inj heq).1

/-- The last write to a container's tuple carries the usage of the last container with that
tuple, in pod-then-container order. -/
theorem lastWrite_container (f : ContainerMetrics Q → F) (ppre ppost : List (PodMetrics Q))
    (pod : PodMetrics Q) (cpre cpost : List (ContainerMetrics Q)) (c : ContainerMetrics Q)
    (hc : pod.Containers = cpre ++ c :: cpost)
    (hcpost : ∀ c1 ∈ cpost, c1.Name ≠ c.Name)
    (hppost : ∀ p1 ∈ ppost, ∀ c1 ∈ p1.Containers,
      [p1.Namespace, p1.Name, c1.Name] ≠ [pod.Namespace, pod.Name, c.Name]) :
    lastWrite [pod.Namespace, pod.Name, c.Name]
        ((ppre ++ pod :: ppost).flatMap
          (fun p => p.Containers.map (fun c1 => (containerKey p c1, f c1)))) =
      some (f c) := by
  have hsplit : (ppre ++ pod :: ppost).flatMap
        (fun p => p.Containers.map (fun c1 => (containerKey p c1, f c1))) =
      (ppre.flatMap (fun p => p.Containers.map (fun c1 => (containerKey p c1, f c1))) ++
          cpre.map (fun c1 => (containerKey pod c1, f c1))) ++
        ([pod.Namespace, pod.Name, c.Name], f c) ::
          (cpost.map (fun c1 => (containerKey pod c1, f c1)) ++
            ppost.flatMap (fun p => p.Containers.map (fun c1 => (containerKey p c1, f c1)))) := by
    simp [List.flatMap_append, List.flatMap_cons, hc, containerKey]
  rw [hsplit]
  apply lastWrite_append_cons
  simp only [List.map_append, List.mem_append, List.map_map, List.mem_map, Function.comp,
    List.map_flatMap, List.mem_flatMap, containerKey, not_or, not_exists, not_and]
  constructor
  · intro c1 hc1 heq
    have h3 : c1.Name = c.Name := by
      have := List.cons.inj (List.cons.inj (List.cons.inj heq).2).2
      exact this.1
    exact hcpost c1 hc1 h3
  · intro p1 hp1 c1 hc1 heq
    exact hppost p1 hp1 c1 hc1 heq

theorem length_containerKeys (pods : List (PodMetrics Q)) :
    (containerKeys pods).length = (pods.map (fun pod => pod.Containers.length)).sum := by
  induction pods with
  | nil => rfl
  | cons pod rest ih =>
    simp only [containerKeys, List.flatMap_cons, List.length_append, List.length_map,
      List.map_cons, List.sum_cons] at ih ⊢
    rw [ih]

theorem dedup_length_nodeKeys (items : List (NodeMetrics Q)) :
    (nodeKeys items).dedup.length = (items.map (fun node => node.Name)).dedup.length := by
  have hinj : Function.Injective (fun s : GoString => [s]) := by
    intro a b hab
    exact (List.cons.inj hab).1
  have hk : nodeKeys items = (items.map (fun node => node.Name)).map (fun s => [s]) := by
    simp [nodeKeys]
  rw [hk, List.dedup_map_of_injective hinj, List.length_map]

theorem nodeKeys_reachedNodes_subset (items : List (NodeMetrics Q)) (k : LabelValues)
    (hk : k ∈ nodeKeys (reachedNodes items)) : k ∈ nodeKeys items := by
  obtain ⟨node, hnode, heq⟩ := mem_nodeKeys.mp hk
  exact mem_nodeKeys.mpr ⟨node, (List.takeWhile_sublist validNode).subset hnode, heq⟩

theorem containerKeys_reachedPods_subset (pods : List (PodMetrics Q)) (k : LabelValues)
    (hk : k ∈ containerKeys (reachedPods pods)) : k ∈ containerKeys pods := by
  induction pods with
  | nil => exact hk
  | cons pod rest ih =>
    obtain ⟨p, hp, c, hc, heq⟩ := mem_containerKeys.mp hk
    by_cases hv : pod.Containers.all (validContainer pod) = true
    · simp only [reachedPods, hv, if_true, List.mem_cons] at hp
      rcases hp with hp | hp
      · subst hp
        exact mem_containerKeys.mpr ⟨p, List.mem_cons_self _ _, c, hc, heq⟩
      · obtain ⟨p1, hp1, c1, hc1, heq1⟩ :=
          mem_containerKeys.mp (ih (mem_containerKeys.mpr ⟨p, hp, c, hc, heq⟩))
        exact mem_containerKeys.mpr ⟨p1, List.mem_cons_of_mem _ hp1, c1, hc1, heq1⟩
    · simp only [reachedPods, hv, Bool.false_eq_true, if_false, List.mem_singleton] at hp
      subst hp
      exact mem_containerKeys.mpr ⟨pod, List.mem_cons_self _ _, c,
        (List.takeWhile_sublist (validContainer pod)).subset hc, heq⟩

theorem scrapedNodes_subset (c : Clientset Q) (nodeMetrics : NodeMetricsList Q)
    (hn : c.nodes = .ok nodeMetrics) (k : LabelValues)
    (hk : k ∈ nodeKeys (scrapedNodes c)) : k ∈ nodeKeys nodeMetrics.Items := by
  simp only [scrapedNodes, hn] at hk
  exact nodeKeys_reachedNodes_subset _ k hk

theorem scrapedNodes_of_error (c : Clientset Q) (e : GoError) (hn : c.nodes = .error e) :
    scrapedNodes c = [] := by
  simp only [scrapedNodes, hn]

theorem scrapedPods_of_nodes_error (c : Clientset Q) (e : GoError)
    (hn : c.nodes = .error e) : scrapedPods c = [] := by
  simp only [scrapedPods, hn]

theorem scrapedPods_of_pods_error (c : Clientset Q) (e : GoError)
    (hp : c.pods "" = .error e) : scrapedPods c = [] := by
  unfold scrapedPods
  cases c.nodes with
  | error e1 => rfl
  | ok nodeMetrics =>
    by_cases hv : nodesValid nodeMetrics.Items = true
    · simp only [hv, if_true, hp]
    · simp only [hv, Bool.false_eq_true, if_false]

theorem scrapedPods_subset (c : Clientset Q) (podMetrics : PodMetricsList Q)
    (hp : c.pods "" = .ok podMetrics) (k : LabelValues)
    (hk : k ∈ containerKeys (scrapedPods c)) : k ∈ containerKeys podMetrics.Items := by
  unfold scrapedPods at hk
  cases hn : c.nodes with
  | error e1 =>
    simp only [hn, containerKeys, List.flatMap_nil, List.not_mem_nil] at hk
  | ok nodeMetrics =>
    by_cases hv : nodesValid nodeMetrics.Items = true
    · simp only [hn, hv, if_true, hp] at hk
      exact containerKeys_reachedPods_subset _ k hk
    · simp only [hn, hv, Bool.false_eq_true, if_false, containerKeys, List.flatMap_nil,
        List.not_mem_nil] at hk

end Writes

/-! ## The five ways a request can go -/

/-- A request that returns leaves the handler it returns. -/
theorem eq_ok_of_after {Q F : Type} (r : Except (Panic Q F) (handler Q F × ResponseWriter))
    (x : handler Q F) (w : ResponseWriter) (hr : r = .ok (x, w)) (h1 : handler Q F)
    (e : h1 = handlerAfter r) : r = .ok (h1, w) := by
  subst hr
  subst e
  rfl

section Cases

variable {Q F R : Type} [Zero F]

/-- A request whose node listing fails. -/
theorem ServeHTTP_nodes_error (lib : Lib Q F R) (h : handler Q F) (writer : ResponseWriter)
    (request : R) (e : GoError) (hn : h.clientset.nodes = .error e) :
    h.ServeHTTP lib writer request =
      .ok (h.called [ApiCall.NodeMetricsesList], (writer.WriteHeader 500).Write e.Error) := by
  obtain ⟨reg, ⟨nodes, pods, calls⟩, g1, g2, g3, g4⟩ := h
  dsimp only at hn
  subst hn
  rfl

/-- A request whose node listing holds a name that is not valid UTF-8. -/
theorem ServeHTTP_nodes_panic (lib : Lib Q F R) (h : handler Q F) (hw : h.Wired)
    (writer : ResponseWriter) (request : R) (nodeMetrics : NodeMetricsList Q)
    (hn : h.clientset.nodes = .ok nodeMetrics) (hv : nodesValid nodeMetrics.Items = false) :
    h.ServeHTTP lib writer request =
      .error { err := .invalidUTF8
               h := (h.called [ApiCall.NodeMetricsesList]).writeNodes
                 (nodeCPUWrites lib (reachedNodes nodeMetrics.Items))
                 (nodeMemoryWrites lib (reachedNodes nodeMetrics.Items)) } := by
  have hl := nodeLoop_eq lib nodeMetrics.Items (h.called [ApiCall.NodeMetricsesList])
    (Wired_called h _ hw)
  rw [if_neg (by rw [hv]; exact Bool.false_ne_true)] at hl
  obtain ⟨reg, ⟨nodes, pods, calls⟩, g1, g2, g3, g4⟩ := h
  dsimp only at hn
  subst hn
  simp only [handler.called] at hl
  simp only [handler.ServeHTTP, Clientset.NodeMetricsesList, hl]
  rfl

/-- A request whose node listing succeeds and whose pod listing fails. -/
theorem ServeHTTP_pods_error (lib : Lib Q F R) (h : handler Q F) (hw : h.Wired)
    (writer : ResponseWriter) (request : R) (nodeMetrics : NodeMetricsList Q) (e : GoError)
    (hn : h.clientset.nodes = .ok nodeMetrics) (hv : nodesValid nodeMetrics.Items = true)
    (hp : h.clientset.pods "" = .error e) :
    h.ServeHTTP lib writer request =
      .ok (((h.called [ApiCall.NodeMetricsesList]).writeNodes
          (nodeCPUWrites lib nodeMetrics.Items)
          (nodeMemoryWrites lib nodeMetrics.Items)).called [ApiCall.PodMetricsesList ""],
        (writer.WriteHeader 500).Write e.Error) := by
  have hl := nodeLoop_eq lib nodeMetrics.Items (h.called [ApiCall.NodeMetricsesList])
    (Wired_called h _ hw)
  rw [if_pos hv] at hl
  obtain ⟨reg, ⟨nodes, pods, calls⟩, g1, g2, g3, g4⟩ := h
  dsimp only at hn hp
  subst hn
  simp only [handler.called] at hl
  simp only [handler.ServeHTTP, Clientset.NodeMetricsesList, hl]
  simp only [handler.writeNodes, Clientset.PodMetricsesList, hp]
  rfl

/-- A request both of whose listings succeed, with a container whose namespace, pod name or
name is not valid UTF-8. -/
theorem ServeHTTP_pods_panic (lib : Lib Q F R) (h : handler Q F) (hw : h.Wired)
    (writer : ResponseWriter) (request : R) (nodeMetrics : NodeMetricsList Q)
    (podMetrics : PodMetricsList Q)
    (hn : h.clientset.nodes = .ok nodeMetrics) (hv : nodesValid nodeMetrics.Items = true)
    (hp : h.clientset.pods "" = .ok podMetrics) (hpv : podsValid podMetrics.Items = false) :
    h.ServeHTTP lib writer request =
      .error { err := .invalidUTF8
               h := (((h.called [ApiCall.NodeMetricsesList]).writeNodes
                   (nodeCPUWrites lib nodeMetrics.Items)
                   (nodeMemoryWrites lib nodeMetrics.Items)).called
                     [ApiCall.PodMetricsesList ""]).writeContainers
                 (containerCPUWrites lib (reachedPods podMetrics.Items))
                 (containerMemoryWrites lib (reachedPods podMetrics.Items)) } := by
  have hl := nodeLoop_eq lib nodeMetrics.Items (h.called [ApiCall.NodeMetricsesList])
    (Wired_called h _ hw)
  have hl2 := podLoop_eq lib podMetrics.Items
    (((h.called [ApiCall.NodeMetricsesList]).writeNodes
      (nodeCPUWrites lib nodeMetrics.Items)
      (nodeMemoryWrites lib nodeMetrics.Items)).called [ApiCall.PodMetricsesList ""])
    (Wired_called _ _ (Wired_writeNodes _ _ _ (Wired_called h _ hw)))
  rw [if_pos hv] at hl
  rw [if_neg (by rw [hpv]; exact Bool.false_ne_true)] at hl2
  obtain ⟨reg, ⟨nodes, pods, calls⟩, g1, g2, g3, g4⟩ := h
  dsimp only at hn hp
  subst hn
  simp only [handler.called] at hl
  simp only [handler.ServeHTTP, Clientset.NodeMetricsesList, hl]
  simp only [handler.called, handler.writeNodes] at hl2
  simp only [handler.writeNodes, Clientset.PodMetricsesList, hp, hl2]
  rfl

/-- A request both of whose listings succeed, all names being valid UTF-8. -/
theorem ServeHTTP_ok (lib : Lib Q F R) (h : handler Q F) (hw : h.Wired)
    (writer : ResponseWriter) (request : R) (nodeMetrics : NodeMetricsList Q)
    (podMetrics : PodMetricsList Q)
    (hn : h.clientset.nodes = .ok nodeMetrics) (hv : nodesValid nodeMetrics.Items = true)
    (hp : h.clientset.pods "" = .ok podMetrics) (hpv : podsValid podMetrics.Items = true) :
    h.ServeHTTP lib writer request =
      .ok ((((h.called [ApiCall.NodeMetricsesList]).writeNodes
          (nodeCPUWrites lib nodeMetrics.Items)
          (nodeMemoryWrites lib nodeMetrics.Items)).called
            [ApiCall.PodMetricsesList ""]).writeContainers
          (containerCPUWrites lib podMetrics.Items)
          (containerMemoryWrites lib podMetrics.Items),
        promhttpServeHTTP lib
          ((((h.called [ApiCall.NodeMetricsesList]).writeNodes
            (nodeCPUWrites lib nodeMetrics.Items)
            (nodeMemoryWrites lib nodeMetrics.Items)).called
              [ApiCall.PodMetricsesList ""]).writeContainers
            (containerCPUWrites lib podMetrics.Items)
            (containerMemoryWrites lib podMetrics.Items)) writer request) := by
  have hl := nodeLoop_eq lib nodeMetrics.Items (h.called [ApiCall.NodeMetricsesList])
    (Wired_called h _ hw)
  have hl2 := podLoop_eq lib podMetrics.Items
    (((h.called [ApiCall.NodeMetricsesList]).writeNodes
      (nodeCPUWrites lib nodeMetrics.Items)
      (nodeMemoryWrites lib nodeMetrics.Items)).called [ApiCall.PodMetricsesList ""])
    (Wired_called _ _ (Wired_writeNodes _ _ _ (Wired_called h _ hw)))
  rw [if_pos hv] at hl
  rw [if_pos hpv] at hl2
  obtain ⟨reg, ⟨nodes, pods, calls⟩, g1, g2, g3, g4⟩ := h
  dsimp only at hn hp
  subst hn
  simp only [handler.called] at hl
  simp only [handler.ServeHTTP, Clientset.NodeMetricsesList, hl]
  simp only [handler.called, handler.writeNodes] at hl2
  simp only [handler.writeNodes, Clientset.PodMetricsesList, hp, hl2]
  rfl

/-- Whatever way a request goes, it leaves the handler with the writes of the entries it
got through, and with nothing else changed but the record of requests sent. -/
theorem ServeHTTP_after (lib : Lib Q F R) (h : handler Q F) (hw : h.Wired)
    (writer : ResponseWriter) (request : R) :
    ∃ calls, handlerAfter (h.ServeHTTP lib writer request) =
      ((h.called calls).writeNodes
          (nodeCPUWrites lib (scrapedNodes h.clientset))
          (nodeMemoryWrites lib (scrapedNodes h.clientset))).writeContainers
        (containerCPUWrites lib (scrapedPods h.clientset))
        (containerMemoryWrites lib (scrapedPods h.clientset)) := by
  cases hn : h.clientset.nodes with
  | error e =>
    refine ⟨[ApiCall.NodeMetricsesList], ?_⟩
    rw [ServeHTTP_nodes_error lib h writer request e hn,
      scrapedNodes_of_error _ e hn, scrapedPods_of_nodes_error _ e hn]
    rfl
  | ok nodeMetrics =>
    by_cases hv : nodesValid nodeMetrics.Items = true
    · have hsn : scrapedNodes h.clientset = nodeMetrics.Items := by
        simp only [scrapedNodes, hn]
        exact reachedNodes_of_valid _ hv
      cases hp : h.clientset.pods "" with
      | error e =>
        refine ⟨[ApiCall.NodeMetricsesList, ApiCall.PodMetricsesList ""], ?_⟩
        rw [ServeHTTP_pods_error lib h hw writer request nodeMetrics e hn hv hp, hsn,
          scrapedPods_of_pods_error _ e hp]
        simp [handlerAfter, handler.called, handler.writeNodes, handler.writeContainers,
          MetricMap.putAll, containerCPUWrites, containerMemoryWrites]
      | ok podMetrics =>
        refine ⟨[ApiCall.NodeMetricsesList, ApiCall.PodMetricsesList ""], ?_⟩
        by_cases hpv : podsValid podMetrics.Items = true
        · have hsp : scrapedPods h.clientset = podMetrics.Items := by
            simp only [scrapedPods, hn, hv, if_true, hp]
            exact reachedPods_of_valid _ hpv
          rw [ServeHTTP_ok lib h hw writer request nodeMetrics podMetrics hn hv hp hpv,
            hsn, hsp]
          simp [handlerAfter, handler.called, handler.writeNodes, handler.writeContainers]
        · have hpv2 : podsValid podMetrics.Items = false := by
            simpa using hpv
          have hsp : scrapedPods h.clientset = reachedPods podMetrics.Items := by
            simp only [scrapedPods, hn, hv, if_true, hp]
          rw [ServeHTTP_pods_panic lib h hw writer request nodeMetrics podMetrics hn hv hp
            hpv2, hsn, hsp]
          simp [handlerAfter, handler.called, handler.writeNodes, handler.writeContainers]
    · have hv2 : nodesValid nodeMetrics.Items = false := by
        simpa using hv
      have hsn : scrapedNodes h.clientset = reachedNodes nodeMetrics.Items := by
        simp only [scrapedNodes, hn]
      have hsp : scrapedPods h.clientset = [] := by
        simp only [scrapedPods, hn, hv2, Bool.false_eq_true, if_false]
      refine ⟨[ApiCall.NodeMetricsesList], ?_⟩
      rw [ServeHTTP_nodes_panic lib h hw writer request nodeMetrics hn hv2, hsn, hsp]
      rfl

/-- The only error a panic of a request carries is the UTF-8 error. -/
theorem ServeHTTP_panic_err (lib : Lib Q F R) (h : handler Q F) (hw : h.Wired)
    (writer : ResponseWriter) (request : R) (p : Panic Q F)
    (hs : h.ServeHTTP lib writer request = .error p) : p.err = .invalidUTF8 := by
  cases hn : h.clientset.nodes with
  | error e =>
    rw [ServeHTTP_nodes_error lib h writer request e hn] at hs
    exact Except.noConfusion hs
  | ok nodeMetrics =>
    by_cases hv : nodesValid nodeMetrics.Items = true
    · cases hp : h.clientset.pods "" with
      | error e =>
        rw [ServeHTTP_pods_error lib h hw writer request nodeMetrics e hn hv hp] at hs
        exact Except.noConfusion hs
      | ok podMetrics =>
        by_cases hpv : podsValid podMetrics.Items = true
        · rw [ServeHTTP_ok lib h hw writer request nodeMetrics podMetrics hn hv hp hpv] at hs
          exact Except.noConfusion hs
        · have hpv2 : podsValid podMetrics.Items = false := by
            simpa using hpv
          rw [ServeHTTP_pods_panic lib h hw writer request nodeMetrics podMetrics hn hv hp
            hpv2] at hs
          rw [← Except.error.inj hs]
    · have hv2 : nodesValid nodeMetrics.Items = false := by
        simpa using hv
      rw [ServeHTTP_nodes_panic lib h hw writer request nodeMetrics hn hv2] at hs
      rw [← Except.error.inj hs]

end Cases

/-! ## Supporting facts -/

/-- The handler built by `main` has the wiring the statements assume, and its gauges are
empty. -/
theorem main_Wired {Q F C : Type} (buildConfigFromFlags : Except GoError C)
    (newForConfig : C → Except GoError (Clientset Q))
    (h : handler Q F) (hm : main buildConfigFromFlags newForConfig = .ok h) :
    h.Wired ∧ h.nodeCPUGauge.metrics = [] ∧ h.nodeMemoryGauge.metrics = [] ∧
      h.containerCPUGauge.metrics = [] ∧ h.containerMemoryGauge.metrics = [] := by
  unfold main at hm
  cases hc : NewClientSet buildConfigFromFlags newForConfig with
  | error e => simp [hc] at hm
  | ok c =>
    simp only [hc, Except.ok.injEq] at hm
    subst hm
    exact ⟨⟨rfl, rfl, rfl, rfl, rfl⟩, rfl, rfl, rfl, rfl⟩

/-- A request leaves the wiring as it is, whether it returns or panics. -/
theorem ServeHTTP_Wired {Q F R : Type} [Zero F] (lib : Lib Q F R) (h : handler Q F)
    (hw : h.Wired) (writer : ResponseWriter) (request : R) :
    (handlerAfter (h.ServeHTTP lib writer request)).Wired := by
  obtain ⟨calls, he⟩ := ServeHTTP_after lib h hw writer request
  rw [he]
  exact hw

/-- A request keeps the children of every gauge at pairwise distinct tuples, so the length
of a gauge's child list is its number of entries. -/
theorem ServeHTTP_nodup {Q F R : Type} [Zero F] (lib : Lib Q F R) (h : handler Q F)
    (hw : h.Wired) (writer : ResponseWriter) (request : R)
    (hd : h.nodeCPUGauge.metrics.keys.Nodup ∧ h.nodeMemoryGauge.metrics.keys.Nodup ∧
      h.containerCPUGauge.metrics.keys.Nodup ∧ h.containerMemoryGauge.metrics.keys.Nodup) :
    (handlerAfter (h.ServeHTTP lib writer request)).nodeCPUGauge.metrics.keys.Nodup ∧
      (handlerAfter (h.ServeHTTP lib writer request)).nodeMemoryGauge.metrics.keys.Nodup ∧
      (handlerAfter (h.ServeHTTP lib writer request)).containerCPUGauge.metrics.keys.Nodup ∧
      (handlerAfter (h.ServeHTTP lib writer request)).containerMemoryGauge.metrics.keys.Nodup
    := by
  obtain ⟨d1, d2, d3, d4⟩ := hd
  obtain ⟨calls, he⟩ := ServeHTTP_after lib h hw writer request
  rw [he]
  exact ⟨MetricMap.nodup_keys_putAll _ _ d1, MetricMap.nodup_keys_putAll _ _ d2,
    MetricMap.nodup_keys_putAll _ _ d3, MetricMap.nodup_keys_putAll _ _ d4⟩

/-- The sample stale handler is what one scrape of the sample upstream leaves behind, with
the upstream then changed. -/
theorem staleHandler_reached :
    main (.ok ()) (fun _ => .ok demoUpstream) = .ok (newHandler demoUpstream : handler ℚ ℚ) ∧
    ∃ h1 w, (newHandler demoUpstream : handler ℚ ℚ).ServeHTTP demoLib ResponseWriter.fresh ()
        = .ok (h1, w) ∧
      staleHandler = { h1 with clientset := laterUpstream } :=
  ⟨rfl, _, _, rfl, rfl⟩

/-- The sample name `badName` fails Go's UTF-8 check; the sample ASCII names pass it. -/
theorem sample_names :
    ValidString badName = false ∧
    ValidString (GoString.ofASCII "worker-1") = true ∧
    ValidString (GoString.ofASCII "default") = true ∧
    ValidString (GoString.ofASCII "app-1") = true ∧
    ValidString (GoString.ofASCII "main") = true := by
  decide

/-! ## The claims -/

section Claims

variable {Q F R : Type} [Zero F]

/-- C1: when the node listing fails with error `e`, `ServeHTTP` answers status 500 with
body `e.Error()`, the only request it sends to the metrics API is the node listing (the pod
listing is not attempted), and all four gauges are exactly as before, whatever they held. -/
theorem C1_node_listing_failure (lib : Lib Q F R) (h : handler Q F) (request : R)
    (e : GoError) (hn : h.clientset.nodes = .error e) :
    ∃ h1 w, h.ServeHTTP lib ResponseWriter.fresh request = .ok (h1, w) ∧
      w.status = some 500 ∧ w.body = e.Error ∧
      h1.clientset.calls = h.clientset.calls ++ [ApiCall.NodeMetricsesList] ∧
      h1.nodeCPUGauge = h.nodeCPUGauge ∧ h1.nodeMemoryGauge = h.nodeMemoryGauge ∧
      h1.containerCPUGauge = h.containerCPUGauge ∧
      h1.containerMemoryGauge = h.containerMemoryGauge := by
  refine ⟨_, _, ServeHTTP_nodes_error lib h ResponseWriter.fresh request e hn, ?_, ?_,
    rfl, rfl, rfl, rfl, rfl⟩
  · simp [ResponseWriter.fresh, ResponseWriter.WriteHeader, ResponseWriter.Write]
  · simp [ResponseWriter.fresh, ResponseWriter.WriteHeader, ResponseWriter.Write]

/-- C2 (as stated) fails: with a node listing that succeeds and holds the name `badName`,
which is not valid UTF-8, and a pod listing that fails, the first `With` call panics; the
handler answers nothing, so no status 500, it never sends the pod listing, and the node
gauges hold no value for the listed node. -/
theorem C2_counterexample_invalid_node_name :
    (newHandler badNodePodsDownUpstream : handler ℚ ℚ).Wired ∧
    badNodePodsDownUpstream.nodes = .ok { Items := [badNode] } ∧
    badNodePodsDownUpstream.pods "" = .error { Error := "pods: forbidden" } ∧
    ∃ p, (newHandler badNodePodsDownUpstream : handler ℚ ℚ).ServeHTTP demoLib
        ResponseWriter.fresh () = .error p ∧
      p.err = LabelError.invalidUTF8 ∧
      p.h.clientset.calls = [ApiCall.NodeMetricsesList] ∧
      p.h.nodeCPUGauge.metrics.lookup [badNode.Name] = none ∧
      p.h.nodeMemoryGauge.metrics.lookup [badNode.Name] = none :=
  ⟨by decide, rfl, rfl, _, rfl, rfl, rfl, rfl, rfl⟩

/-- C2 (amended): when the node listing succeeds with node names that are all valid UTF-8
and the pod listing fails with error `e`, `ServeHTTP` answers status 500 with body
`e.Error()`; the node-CPU and node-memory gauges hold, at the tuple of every listed node,
the converted usage of the last entry with that name; the container-CPU and
container-memory gauges are exactly as before. -/
theorem C2_pod_listing_failure (lib : Lib Q F R) (h : handler Q F) (hw : h.Wired)
    (request : R) (nodeMetrics : NodeMetricsList Q) (e : GoError)
    (hn : h.clientset.nodes = .ok nodeMetrics)
    (hv : ∀ node ∈ nodeMetrics.Items, ValidString node.Name = true)
    (hp : h.clientset.pods "" = .error e) :
    ∃ h1 w, h.ServeHTTP lib ResponseWriter.fresh request = .ok (h1, w) ∧
      w.status = some 500 ∧ w.body = e.Error ∧
      (∀ pre node post, nodeMetrics.Items = pre ++ node :: post →
        (∀ n ∈ post, n.Name ≠ node.Name) →
        h1.nodeCPUGauge.metrics.lookup [node.Name] = some (node.cpu lib) ∧
        h1.nodeMemoryGauge.metrics.lookup [node.Name] = some (node.memory lib)) ∧
      h1.containerCPUGauge = h.containerCPUGauge ∧
      h1.containerMemoryGauge = h.containerMemoryGauge := by
  have hv1 : nodesValid nodeMetrics.Items = true := nodesValid_of_forall _ hv
  refine ⟨_, _,
    ServeHTTP_pods_error lib h hw ResponseWriter.fresh request nodeMetrics e hn hv1 hp,
    ?_, ?_, ?_, rfl, rfl⟩
  · simp [ResponseWriter.fresh, ResponseWriter.WriteHeader, ResponseWriter.Write]
  · simp [ResponseWriter.fresh, ResponseWriter.WriteHeader, ResponseWriter.Write]
  · intro pre node post hsplit hpost
    simp only [handler.called, handler.writeNodes, nodeCPUWrites, nodeMemoryWrites, hsplit]
    rw [MetricMap.lookup_putAll, MetricMap.lookup_putAll,
      lastWrite_node (fun n => n.cpu lib) pre post node hpost,
      lastWrite_node (fun n => n.memory lib) pre post node hpost]
    exact ⟨rfl, rfl⟩

/-- C3 (as stated) fails: both listings succeed, the node listing holds the name `badName`,
which is not valid UTF-8, and `ServeHTTP` panics in the first `With` call: it answers
neither 200 nor 500. -/
theorem C3_counterexample_no_answer :
    (newHandler badNodeUpstream : handler ℚ ℚ).Wired ∧
    badNodeUpstream.nodes = .ok { Items := [badNode, worker1] } ∧
    badNodeUpstream.pods "" = .ok { Items := [app1] } ∧
    (∃ p, (newHandler badNodeUpstream : handler ℚ ℚ).ServeHTTP demoLib
        ResponseWriter.fresh () = .error p ∧ p.err = LabelError.invalidUTF8) ∧
    ¬ ∃ h1 w, (newHandler badNodeUpstream : handler ℚ ℚ).ServeHTTP demoLib
        ResponseWriter.fresh () = .ok (h1, w) := by
  refine ⟨by decide, rfl, rfl, ⟨_, rfl, rfl⟩, ?_⟩
  rintro ⟨h1, w, he⟩
  have hp : (newHandler badNodeUpstream : handler ℚ ℚ).ServeHTTP demoLib
      ResponseWriter.fresh () = .error
        { err := .invalidUTF8
          h := (newHandler badNodeUpstream : handler ℚ ℚ).called
            [ApiCall.NodeMetricsesList] } := rfl
  rw [hp] at he
  exact Except.noConfusion he

/-- C3 (amended): `ServeHTTP` answers status 200 exactly when both listings succeed and
every listed node name and every namespace, pod name and container name of a listed
container is valid UTF-8; it answers status 500 exactly when the node listing fails, or
succeeds with valid names while the pod listing fails; in the remaining cases it panics in
`With` on a value that is not valid UTF-8 and answers nothing. On success the body is the
encoding of the four gauges as they stand after this request, in full, and every tuple a
gauge held before the request is still among them. -/
theorem C3_success_iff_listings_and_names (lib : Lib Q F R) (h : handler Q F)
    (hw : h.Wired) (request : R) :
    ((∃ h1 w, h.ServeHTTP lib ResponseWriter.fresh request = .ok (h1, w) ∧
        w.status = some 200) ↔
      ∃ nodeMetrics podMetrics, h.clientset.nodes = .ok nodeMetrics ∧
        h.clientset.pods "" = .ok podMetrics ∧
        nodesValid nodeMetrics.Items = true ∧ podsValid podMetrics.Items = true) ∧
    ((∃ h1 w, h.ServeHTTP lib ResponseWriter.fresh request = .ok (h1, w) ∧
        w.status = some 500) ↔
      ((∃ e, h.clientset.nodes = .error e) ∨
        ∃ nodeMetrics e, h.clientset.nodes = .ok nodeMetrics ∧
          nodesValid nodeMetrics.Items = true ∧ h.clientset.pods "" = .error e)) ∧
    (∀ h1 w, h.ServeHTTP lib ResponseWriter.fresh request = .ok (h1, w) →
      w.status = some 200 ∨ w.status = some 500) ∧
    (∀ p, h.ServeHTTP lib ResponseWriter.fresh request = .error p →
      p.err = LabelError.invalidUTF8) ∧
    (∀ h1 w, h.ServeHTTP lib ResponseWriter.fresh request = .ok (h1, w) →
      w.status = some 200 →
      w.body = lib.encode request
          [h1.nodeCPUGauge, h1.nodeMemoryGauge, h1.containerCPUGauge,
            h1.containerMemoryGauge] ∧
        (∀ k ∈ h.nodeCPUGauge.metrics.keys, k ∈ h1.nodeCPUGauge.metrics.keys) ∧
        (∀ k ∈ h.nodeMemoryGauge.metrics.keys, k ∈ h1.nodeMemoryGauge.metrics.keys) ∧
        (∀ k ∈ h.containerCPUGauge.metrics.keys, k ∈ h1.containerCPUGauge.metrics.keys) ∧
        (∀ k ∈ h.containerMemoryGauge.metrics.keys,
          k ∈ h1.containerMemoryGauge.metrics.keys)) := by
  have s500 : ∀ s : String,
      ((ResponseWriter.fresh.WriteHeader 500).Write s).status = some 500 := by
    intro s
    simp [ResponseWriter.fresh, ResponseWriter.WriteHeader, ResponseWriter.Write]
  have s200 : ∀ hh : handler Q F,
      (promhttpServeHTTP lib hh ResponseWriter.fresh request).status = some 200 := by
    intro hh
    simp [promhttpServeHTTP, ResponseWriter.fresh, ResponseWriter.WriteHeader,
      ResponseWriter.Write]
  refine ⟨?_, ?_, ?_, fun p hs => ServeHTTP_panic_err lib h hw _ request p hs, ?_⟩
  · -- status 200
    constructor
    · rintro ⟨h1, w, hs, hst⟩
      cases hn : h.clientset.nodes with
      | error e =>
        rw [ServeHTTP_nodes_error lib h _ request e hn] at hs
        have hw2 := (Prod.mk.inj (Except.ok.inj hs)).2
        rw [← hw2, s500] at hst
        exact absurd hst (by decide)
      | ok nodeMetrics =>
        by_cases hv : nodesValid nodeMetrics.Items = true
        · cases hp : h.clientset.pods "" with
          | error e =>
            rw [ServeHTTP_pods_error lib h hw _ request nodeMetrics e hn hv hp] at hs
            have hw2 := (Prod.mk.inj (Except.ok.inj hs)).2
            rw [← hw2, s500] at hst
            exact absurd hst (by decide)
          | ok podMetrics =>
            by_cases hpv : podsValid podMetrics.Items = true
            · exact ⟨nodeMetrics, podMetrics, rfl, rfl, hv, hpv⟩
            · have hpv2 : podsValid podMetrics.Items = false := by simpa using hpv
              rw [ServeHTTP_pods_panic lib h hw _ request nodeMetrics podMetrics hn hv hp
                hpv2] at hs
              exact Except.noConfusion hs
        · have hv2 : nodesValid nodeMetrics.Items = false := by simpa using hv
          rw [ServeHTTP_nodes_panic lib h hw _ request nodeMetrics hn hv2] at hs
          exact Except.noConfusion hs
    · rintro ⟨nodeMetrics, podMetrics, hn, hp, hv, hpv⟩
      exact ⟨_, _, ServeHTTP_ok lib h hw _ request nodeMetrics podMetrics hn hv hp hpv,
        s200 _⟩
  · -- status 500
    constructor
    · rintro ⟨h1, w, hs, hst⟩
      cases hn : h.clientset.nodes with
      | error e => exact Or.inl ⟨e, rfl⟩
      | ok nodeMetrics =>
        by_cases hv : nodesValid nodeMetrics.Items = true
        · cases hp : h.clientset.pods "" with
          | error e => exact Or.inr ⟨nodeMetrics, e, rfl, hv, rfl⟩
          | ok podMetrics =>
            by_cases hpv : podsValid podMetrics.Items = true
            · rw [ServeHTTP_ok lib h hw _ request nodeMetrics podMetrics hn hv hp hpv] at hs
              have hw2 := (Prod.mk.inj (Except.ok.inj hs)).2
              rw [← hw2, s200] at hst
              exact absurd hst (by decide)
            · have hpv2 : podsValid podMetrics.Items = false := by simpa using hpv
              rw [ServeHTTP_pods_panic lib h hw _ request nodeMetrics podMetrics hn hv hp
                hpv2] at hs
              exact Except.noConfusion hs
        · have hv2 : nodesValid nodeMetrics.Items = false := by simpa using hv
          rw [ServeHTTP_nodes_panic lib h hw _ request nodeMetrics hn hv2] at hs
          exact Except.noConfusion hs
    · rintro (⟨e, hn⟩ | ⟨nodeMetrics, e, hn, hv, hp⟩)
      · exact ⟨_, _, ServeHTTP_nodes_error lib h _ request e hn, s500 _⟩
      · exact ⟨_, _, ServeHTTP_pods_error lib h hw _ request nodeMetrics e hn hv hp,
          s500 _⟩
  · -- an answer is 200 or 500
    intro h1 w hs
    cases hn : h.clientset.nodes with
    | error e =>
      rw [ServeHTTP_nodes_error lib h _ request e hn] at hs
      have hw2 := (Prod.mk.inj (Except.ok.inj hs)).2
      rw [← hw2]
      exact Or.inr (s500 _)
    | ok nodeMetrics =>
      by_cases hv : nodesValid nodeMetrics.Items = true
      · cases hp : h.clientset.pods "" with
        | error e =>
          rw [ServeHTTP_pods_error lib h hw _ request nodeMetrics e hn hv hp] at hs
          have hw2 := (Prod.mk.inj (Except.ok.inj hs)).2
          rw [← hw2]
          exact Or.inr (s500 _)
        | ok podMetrics =>
          by_cases hpv : podsValid podMetrics.Items = true
          · rw [ServeHTTP_ok lib h hw _ request nodeMetrics podMetrics hn hv hp hpv] at hs
            have hw2 := (Prod.mk.inj (Except.ok.inj hs)).2
            rw [← hw2]
            exact Or.inl (s200 _)
          · have hpv2 : podsValid podMetrics.Items = false := by simpa using hpv
            rw [ServeHTTP_pods_panic lib h hw _ request nodeMetrics podMetrics hn hv hp
              hpv2] at hs
            exact Except.noConfusion hs
      · have hv2 : nodesValid nodeMetrics.Items = false := by simpa using hv
        rw [ServeHTTP_nodes_panic lib h hw _ request nodeMetrics hn hv2] at hs
        exact Except.noConfusion hs
  · -- the body of a 200 answer
    intro h1 w hs hst
    cases hn : h.clientset.nodes with
    | error e =>
      rw [ServeHTTP_nodes_error lib h _ request e hn] at hs
      have hw2 := (Prod.mk.inj (Except.ok.inj hs)).2
      rw [← hw2, s500] at hst
      exact absurd hst (by decide)
    | ok nodeMetrics =>
      by_cases hv : nodesValid nodeMetrics.Items = true
      · cases hp : h.clientset.pods "" with
        | error e =>
          rw [ServeHTTP_pods_error lib h hw _ request nodeMetrics e hn hv hp] at hs
          have hw2 := (Prod.mk.inj (Except.ok.inj hs)).2
          rw [← hw2, s500] at hst
          exact absurd hst (by decide)
        | ok podMetrics =>
          by_cases hpv : podsValid podMetrics.Items = true
          · rw [ServeHTTP_ok lib h hw _ request nodeMetrics podMetrics hn hv hp hpv] at hs
            obtain ⟨hh1, hw2⟩ := Prod.mk.inj (Except.ok.inj hs)
            subst hh1
            subst hw2
            obtain ⟨hreg, -, -, -, -⟩ := hw
            refine ⟨?_, ?_, ?_, ?_, ?_⟩
            · simp only [promhttpServeHTTP, ResponseWriter.fresh,
                ResponseWriter.WriteHeader, ResponseWriter.Write, handler.Gather,
                handler.called, handler.writeNodes, handler.writeContainers, hreg,
                newHandler, List.map, handler.deref]
              simp
            · intro k hk
              exact (MetricMap.mem_keys_putAll k _ _).mpr (Or.inr hk)
            · intro k hk
              exact (MetricMap.mem_keys_putAll k _ _).mpr (Or.inr hk)
            · intro k hk
              exact (MetricMap.mem_keys_putAll k _ _).mpr (Or.inr hk)
            · intro k hk
              exact (MetricMap.mem_keys_putAll k _ _).mpr (Or.inr hk)
          · have hpv2 : podsValid podMetrics.Items = false := by simpa using hpv
            rw [ServeHTTP_pods_panic lib h hw _ request nodeMetrics podMetrics hn hv hp
              hpv2] at hs
            exact Except.noConfusion hs
      · have hv2 : nodesValid nodeMetrics.Items = false := by simpa using hv
        rw [ServeHTTP_nodes_panic lib h hw _ request nodeMetrics hn hv2] at hs
        exact Except.noConfusion hs

/-- C4 (as stated) fails: the node listing succeeds with the entries `badName` and
`worker-1`; the node loop panics in the first `With` call, on the name that is not valid
UTF-8, and `worker-1`, though listed, is never written to either node gauge. -/
theorem C4_counterexample_node_not_written :
    (newHandler badNodeUpstream : handler ℚ ℚ).Wired ∧
    badNodeUpstream.nodes = .ok { Items := [badNode, worker1] } ∧
    (∃ p, [badNode, worker1].foldlM (nodeStep demoLib)
        ((newHandler badNodeUpstream : handler ℚ ℚ).called [ApiCall.NodeMetricsesList])
        = .error p) ∧
    ∃ p, (newHandler badNodeUpstream : handler ℚ ℚ).ServeHTTP demoLib
        ResponseWriter.fresh () = .error p ∧
      p.h.nodeCPUGauge.metrics.lookup [worker1.Name] = none ∧
      p.h.nodeMemoryGauge.metrics.lookup [worker1.Name] = none :=
  ⟨by decide, rfl, ⟨_, rfl⟩, _, rfl, rfl, rfl⟩

/-- C4 (amended): when the node listing succeeds with node names that are all valid UTF-8,
the node loop of `ServeHTTP` ends without a panic and leaves, at the tuple `[name]` of
every listed node, the converted CPU usage in the node-CPU gauge and the converted memory
usage in the node-memory gauge of the last entry with that name, whatever was stored there
before; the handler still holds these values when the request is over, however the pod
phase goes. -/
theorem C4_node_gauges_hold_listed_usage (lib : Lib Q F R) (h : handler Q F)
    (hw : h.Wired) (request : R) (nodeMetrics : NodeMetricsList Q)
    (hn : h.clientset.nodes = .ok nodeMetrics)
    (hv : ∀ node ∈ nodeMetrics.Items, ValidString node.Name = true) :
    ∃ hN,
      nodeMetrics.Items.foldlM (nodeStep lib) (h.called [ApiCall.NodeMetricsesList])
        = .ok hN ∧
      ∀ pre node post, nodeMetrics.Items = pre ++ node :: post →
        (∀ n ∈ post, n.Name ≠ node.Name) →
        hN.nodeCPUGauge.metrics.lookup [node.Name] = some (node.cpu lib) ∧
        hN.nodeMemoryGauge.metrics.lookup [node.Name] = some (node.memory lib) ∧
        MetricMap.lookup [node.Name]
          (handlerAfter (h.ServeHTTP lib ResponseWriter.fresh request)).nodeCPUGauge.metrics
          = some (node.cpu lib) ∧
        MetricMap.lookup [node.Name]
          (handlerAfter (h.ServeHTTP lib ResponseWriter.fresh request)).nodeMemoryGauge.metrics
          = some (node.memory lib) := by
  have hv1 : nodesValid nodeMetrics.Items = true := nodesValid_of_forall _ hv
  have key : ∀ pre node post, nodeMetrics.Items = pre ++ node :: post →
      (∀ n ∈ post, n.Name ≠ node.Name) →
      (MetricMap.putAll (nodeCPUWrites lib nodeMetrics.Items)
          h.nodeCPUGauge.metrics).lookup [node.Name] = some (node.cpu lib) ∧
      (MetricMap.putAll (nodeMemoryWrites lib nodeMetrics.Items)
          h.nodeMemoryGauge.metrics).lookup [node.Name] = some (node.memory lib) := by
    intro pre node post hsplit hpost
    simp only [nodeCPUWrites, nodeMemoryWrites, hsplit]
    rw [MetricMap.lookup_putAll, MetricMap.lookup_putAll,
      lastWrite_node (fun n => n.cpu lib) pre post node hpost,
      lastWrite_node (fun n => n.memory lib) pre post node hpost]
    exact ⟨rfl, rfl⟩
  have hloop := nodeLoop_eq lib nodeMetrics.Items (h.called [ApiCall.NodeMetricsesList])
    (Wired_called h _ hw)
  rw [if_pos hv1] at hloop
  obtain ⟨calls, hafter⟩ := ServeHTTP_after lib h hw ResponseWriter.fresh request
  have hsn : scrapedNodes h.clientset = nodeMetrics.Items := by
    simp only [scrapedNodes, hn]
    exact reachedNodes_of_valid _ hv1
  rw [hsn] at hafter
  refine ⟨_, hloop, ?_⟩
  intro pre node post hsplit hpost
  obtain ⟨k1, k2⟩ := key pre node post hsplit hpost
  rw [hafter]
  exact ⟨k1, k2, k1, k2⟩

/-- C5 (as stated) fails: both listings succeed, the pod `default/app-2` has the containers
`badName` and `main`; `ServeHTTP` panics in the `With` call for the first of them, on the
name that is not valid UTF-8, and `main`, though listed, is never written to either
container gauge. -/
theorem C5_counterexample_container_not_written :
    (newHandler badContainerUpstream : handler ℚ ℚ).Wired ∧
    badContainerUpstream.nodes = .ok { Items := [worker1] } ∧
    badContainerUpstream.pods "" = .ok { Items := [app2] } ∧
    app2.Containers = [badContainer, mainContainer] ∧
    ∃ p, (newHandler badContainerUpstream : handler ℚ ℚ).ServeHTTP demoLib
        ResponseWriter.fresh () = .error p ∧
      p.err = LabelError.invalidUTF8 ∧
      p.h.containerCPUGauge.metrics.lookup
        [app2.Namespace, app2.Name, mainContainer.Name] = none ∧
      p.h.containerMemoryGauge.metrics.lookup
        [app2.Namespace, app2.Name, mainContainer.Name] = none :=
  ⟨by decide, rfl, rfl, rfl, _, rfl, rfl, rfl, rfl⟩

/-- C5 (amended): when both listings succeed and every listed node name and every
namespace, pod name and container name of a listed container is valid UTF-8, after
`ServeHTTP` the container-CPU and container-memory gauges hold, at the tuple
`[pod.Namespace, pod.Name, container.Name]` of every container of every listed pod, the
converted CPU and memory usage of the last container with that tuple in pod-then-container
order; and a tuple that is not the namespace and name of a listed pod together with the
name of one of that same pod's containers is not written: its entry in both container
gauges is as before. -/
theorem C5_container_gauges_hold_listed_usage (lib : Lib Q F R) (h : handler Q F)
    (hw : h.Wired) (request : R) (nodeMetrics : NodeMetricsList Q)
    (podMetrics : PodMetricsList Q)
    (hn : h.clientset.nodes = .ok nodeMetrics) (hp : h.clientset.pods "" = .ok podMetrics)
    (hv : ∀ node ∈ nodeMetrics.Items, ValidString node.Name = true)
    (hpv : ∀ pod ∈ podMetrics.Items, ∀ c ∈ pod.Containers,
      ValidString pod.Namespace = true ∧ ValidString pod.Name = true ∧
        ValidString c.Name = true) :
    ∃ h1 w, h.ServeHTTP lib ResponseWriter.fresh request = .ok (h1, w) ∧
      (∀ ppre pod ppost cpre c cpost,
        podMetrics.Items = ppre ++ pod :: ppost →
        pod.Containers = cpre ++ c :: cpost →
        (∀ c1 ∈ cpost, c1.Name ≠ c.Name) →
        (∀ p1 ∈ ppost, ∀ c1 ∈ p1.Containers,
          [p1.Namespace, p1.Name, c1.Name] ≠ [pod.Namespace, pod.Name, c.Name]) →
        h1.containerCPUGauge.metrics.lookup [pod.Namespace, pod.Name, c.Name]
          = some (c.cpu lib) ∧
        h1.containerMemoryGauge.metrics.lookup [pod.Namespace, pod.Name, c.Name]
          = some (c.memory lib)) ∧
      (∀ k : LabelValues,
        (∀ pod ∈ podMetrics.Items, ∀ c ∈ pod.Containers,
          k ≠ [pod.Namespace, pod.Name, c.Name]) →
        h1.containerCPUGauge.metrics.lookup k = h.containerCPUGauge.metrics.lookup k ∧
        (k ∈ h1.containerCPUGauge.metrics.keys ↔ k ∈ h.containerCPUGauge.metrics.keys) ∧
        h1.containerMemoryGauge.metrics.lookup k = h.containerMemoryGauge.metrics.lookup k ∧
        (k ∈ h1.containerMemoryGauge.metrics.keys ↔
          k ∈ h.containerMemoryGauge.metrics.keys)) := by
  have hv1 : nodesValid nodeMetrics.Items = true := nodesValid_of_forall _ hv
  have hpv1 : podsValid podMetrics.Items = true := podsValid_of_forall _ hpv
  refine ⟨_, _,
    ServeHTTP_ok lib h hw ResponseWriter.fresh request nodeMetrics podMetrics hn hv1 hp hpv1,
    ?_, ?_⟩
  · intro ppre pod ppost cpre c cpost hsplit hc hcpost hppost
    simp only [handler.called, handler.writeNodes, handler.writeContainers,
      containerCPUWrites, containerMemoryWrites, hsplit]
    rw [MetricMap.lookup_putAll, MetricMap.lookup_putAll,
      lastWrite_container (fun c1 => c1.cpu lib) ppre ppost pod cpre cpost c hc hcpost hppost,
      lastWrite_container (fun c1 => c1.memory lib) ppre ppost pod cpre cpost c hc hcpost
        hppost]
    exact ⟨rfl, rfl⟩
  · intro k hk
    have hnot : k ∉ containerKeys podMetrics.Items := by
      intro hmem
      obtain ⟨pod, hpod, c, hc, heq⟩ := mem_containerKeys.mp hmem
      exact hk pod hpod c hc heq
    have h1 : lastWrite k (containerCPUWrites lib podMetrics.Items) = none :=
      lastWrite_eq_none.mpr (by rw [map_fst_containerCPUWrites]; exact hnot)
    have h2 : lastWrite k (containerMemoryWrites lib podMetrics.Items) = none :=
      lastWrite_eq_none.mpr (by rw [map_fst_containerMemoryWrites]; exact hnot)
    simp only [handler.called, handler.writeNodes, handler.writeContainers]
    rw [MetricMap.lookup_putAll, MetricMap.lookup_putAll, h1, h2,
      MetricMap.mem_keys_putAll, MetricMap.mem_keys_putAll,
      map_fst_containerCPUWrites, map_fst_containerMemoryWrites]
    exact ⟨rfl, ⟨fun hh => hh.resolve_left hnot, Or.inr⟩, rfl,
      ⟨fun hh => hh.resolve_left hnot, Or.inr⟩⟩

/-- C6 (as stated) fails: the handler that has scraped `worker-1` once and is then given a
listing with `worker-2` only ends the request with two entries in the node-CPU gauge, while
the listing holds one distinct node name. -/
theorem C6_counterexample_stale_node :
    staleHandler.Wired ∧
    staleHandler.clientset.nodes = .ok { Items := [worker2] } ∧
    staleHandler.clientset.pods "" = .ok { Items := [] } ∧
    ∃ h1 w, staleHandler.ServeHTTP demoLib ResponseWriter.fresh () = .ok (h1, w) ∧
      w.status = some 200 ∧
      h1.nodeCPUGauge.metrics.length = 2 ∧
      ([worker2].map (fun node => node.Name)).dedup.length = 1 :=
  ⟨by decide, rfl, rfl, _, _, rfl, rfl, rfl, by decide⟩

/-- C6 (amended): after a successful scrape (both listings succeed and every listed name is
valid UTF-8, so the handler answers 200), the node-CPU gauge has the entries it had before
plus one for every distinct listed node name that had no entry before; when it was empty
before the request, the count is the number of distinct node names listed. -/
theorem C6_node_entry_count (lib : Lib Q F R) (h : handler Q F) (hw : h.Wired)
    (request : R) (nodeMetrics : NodeMetricsList Q) (podMetrics : PodMetricsList Q)
    (hn : h.clientset.nodes = .ok nodeMetrics) (hp : h.clientset.pods "" = .ok podMetrics)
    (hv : ∀ node ∈ nodeMetrics.Items, ValidString node.Name = true)
    (hpv : ∀ pod ∈ podMetrics.Items, ∀ c ∈ pod.Containers,
      ValidString pod.Namespace = true ∧ ValidString pod.Name = true ∧
        ValidString c.Name = true) :
    ∃ h1 w, h.ServeHTTP lib ResponseWriter.fresh request = .ok (h1, w) ∧
      w.status = some 200 ∧
      h1.nodeCPUGauge.metrics.length =
        h.nodeCPUGauge.metrics.length +
          ((nodeMetrics.Items.map (fun node => [node.Name])).toFinset \
            h.nodeCPUGauge.metrics.keys.toFinset).card ∧
      (h.nodeCPUGauge.metrics = [] →
        h1.nodeCPUGauge.metrics.length =
          (nodeMetrics.Items.map (fun node => node.Name)).dedup.length) := by
  have hlen := MetricMap.length_putAll (nodeCPUWrites lib nodeMetrics.Items)
    h.nodeCPUGauge.metrics
  rw [map_fst_nodeCPUWrites] at hlen
  refine ⟨_, _,
    ServeHTTP_ok lib h hw ResponseWriter.fresh request nodeMetrics podMetrics hn
      (nodesValid_of_forall _ hv) hp (podsValid_of_forall _ hpv),
    ?_, hlen, ?_⟩
  · simp [promhttpServeHTTP, ResponseWriter.fresh, ResponseWriter.WriteHeader,
      ResponseWriter.Write]
  intro hempty
  have hlen2 := hlen
  rw [hempty] at hlen2
  simp only [MetricMap.keys, List.map_nil, List.toFinset_nil, Finset.sdiff_empty,
    List.length_nil, Nat.zero_add, List.card_toFinset] at hlen2
  rw [dedup_length_nodeKeys] at hlen2
  simp only [handler.called, handler.writeNodes, handler.writeContainers, hempty]
  exact hlen2

/-- C7 (as stated) fails: the handler that has scraped the pod `default/app-1` once and is
then given an empty pod listing ends the request with one entry in each container gauge,
while the listing holds no container at all. -/
theorem C7_counterexample_stale_container :
    staleHandler.Wired ∧
    staleHandler.clientset.nodes = .ok { Items := [worker2] } ∧
    staleHandler.clientset.pods "" = .ok { Items := [] } ∧
    ∃ h1 w, staleHandler.ServeHTTP demoLib ResponseWriter.fresh () = .ok (h1, w) ∧
      w.status = some 200 ∧
      h1.containerCPUGauge.metrics.length = 1 ∧
      h1.containerMemoryGauge.metrics.length = 1 ∧
      (([] : List (PodMetrics ℚ)).map (fun pod => pod.Containers.length)).sum = 0 :=
  ⟨by decide, rfl, rfl, _, _, rfl, rfl, rfl, rfl, rfl⟩

/-- C7 (amended): after a successful scrape (both listings succeed and every listed name is
valid UTF-8, so the handler answers 200), each container gauge has the entries it had
before plus one for every distinct listed (namespace, pod, container) tuple that had no
entry before; when the gauge was empty before the request and the listed tuples are
pairwise distinct, the count is the sum of the lengths of the pods' container lists. -/
theorem C7_container_entry_count (lib : Lib Q F R) (h : handler Q F) (hw : h.Wired)
    (request : R) (nodeMetrics : NodeMetricsList Q) (podMetrics : PodMetricsList Q)
    (hn : h.clientset.nodes = .ok nodeMetrics) (hp : h.clientset.pods "" = .ok podMetrics)
    (hv : ∀ node ∈ nodeMetrics.Items, ValidString node.Name = true)
    (hpv : ∀ pod ∈ podMetrics.Items, ∀ c ∈ pod.Containers,
      ValidString pod.Namespace = true ∧ ValidString pod.Name = true ∧
        ValidString c.Name = true) :
    ∃ h1 w, h.ServeHTTP lib ResponseWriter.fresh request = .ok (h1, w) ∧
      w.status = some 200 ∧
      h1.containerCPUGauge.metrics.length =
        h.containerCPUGauge.metrics.length +
          ((containerKeys podMetrics.Items).toFinset \
            h.containerCPUGauge.metrics.keys.toFinset).card ∧
      h1.containerMemoryGauge.metrics.length =
        h.containerMemoryGauge.metrics.length +
          ((containerKeys podMetrics.Items).toFinset \
            h.containerMemoryGauge.metrics.keys.toFinset).card ∧
      ((containerKeys podMetrics.Items).Nodup →
        (h.containerCPUGauge.metrics = [] →
          h1.containerCPUGauge.metrics.length =
            (podMetrics.Items.map (fun pod => pod.Containers.length)).sum) ∧
        (h.containerMemoryGauge.metrics = [] →
          h1.containerMemoryGauge.metrics.length =
            (podMetrics.Items.map (fun pod => pod.Containers.length)).sum)) := by
  have hlen1 := MetricMap.length_putAll (containerCPUWrites lib podMetrics.Items)
    h.containerCPUGauge.metrics
  have hlen2 := MetricMap.length_putAll (containerMemoryWrites lib podMetrics.Items)
    h.containerMemoryGauge.metrics
  rw [map_fst_containerCPUWrites] at hlen1
  rw [map_fst_containerMemoryWrites] at hlen2
  refine ⟨_, _,
    ServeHTTP_ok lib h hw ResponseWriter.fresh request nodeMetrics podMetrics hn
      (nodesValid_of_forall _ hv) hp (podsValid_of_forall _ hpv),
    ?_, hlen1, hlen2, ?_⟩
  · simp [promhttpServeHTTP, ResponseWriter.fresh, ResponseWriter.WriteHeader,
      ResponseWriter.Write]
  intro hnodup
  constructor
  · intro hempty
    have hl := hlen1
    rw [hempty] at hl
    simp only [MetricMap.keys, List.map_nil, List.toFinset_nil, Finset.sdiff_empty,
      List.length_nil, Nat.zero_add, List.toFinset_card_of_nodup hnodup,
      length_containerKeys] at hl
    simp only [handler.called, handler.writeNodes, handler.writeContainers, hempty]
    exact hl
  · intro hempty
    have hl := hlen2
    rw [hempty] at hl
    simp only [MetricMap.keys, List.map_nil, List.toFinset_nil, Finset.sdiff_empty,
      List.length_nil, Nat.zero_add, List.toFinset_card_of_nodup hnodup,
      length_containerKeys] at hl
    simp only [handler.called, handler.writeNodes, handler.writeContainers, hempty]
    exact hl

/-- C8: a second `ServeHTTP` right after the first, against the same upstream answers,
leaves each of the four gauges equal to what the first left: the same label-tuples with
the same values. This holds for every pair of successful listings, also when a request
panics on a name that is not valid UTF-8 (the second stops where the first did); when all
listed names are valid UTF-8 both requests return. -/
theorem C8_scrape_idempotent (lib : Lib Q F R) (h : handler Q F) (hw : h.Wired)
    (request request2 : R) (nodeMetrics : NodeMetricsList Q) (podMetrics : PodMetricsList Q)
    (hn : h.clientset.nodes = .ok nodeMetrics) (hp : h.clientset.pods "" = .ok podMetrics)
    (h1 h2 : handler Q F)
    (e1 : h1 = handlerAfter (h.ServeHTTP lib ResponseWriter.fresh request))
    (e2 : h2 = handlerAfter (h1.ServeHTTP lib ResponseWriter.fresh request2)) :
    h1.clientset.nodes = h.clientset.nodes ∧ h1.clientset.pods = h.clientset.pods ∧
    h2.nodeCPUGauge = h1.nodeCPUGauge ∧ h2.nodeMemoryGauge = h1.nodeMemoryGauge ∧
    h2.containerCPUGauge = h1.containerCPUGauge ∧
    h2.containerMemoryGauge = h1.containerMemoryGauge ∧
    ((∀ node ∈ nodeMetrics.Items, ValidString node.Name = true) →
      (∀ pod ∈ podMetrics.Items, ∀ c ∈ pod.Containers,
        ValidString pod.Namespace = true ∧ ValidString pod.Name = true ∧
          ValidString c.Name = true) →
      ∃ w1 w2, h.ServeHTTP lib ResponseWriter.fresh request = .ok (h1, w1) ∧
        h1.ServeHTTP lib ResponseWriter.fresh request2 = .ok (h2, w2)) := by
  obtain ⟨calls1, a1⟩ := ServeHTTP_after lib h hw ResponseWriter.fresh request
  rw [← e1] at a1
  have hw1 : h1.Wired := by
    rw [a1]
    exact hw
  have hn1 : h1.clientset.nodes = h.clientset.nodes := by
    rw [a1]
    rfl
  have hp1 : h1.clientset.pods = h.clientset.pods := by
    rw [a1]
    rfl
  have hs1 : scrapedNodes h1.clientset = scrapedNodes h.clientset := by
    rw [a1]
    rfl
  have hs2 : scrapedPods h1.clientset = scrapedPods h.clientset := by
    rw [a1]
    rfl
  obtain ⟨calls2, a2⟩ := ServeHTTP_after lib h1 hw1 ResponseWriter.fresh request2
  rw [← e2, hs1, hs2] at a2
  refine ⟨hn1, hp1, ?_, ?_, ?_, ?_, ?_⟩
  · rw [a2, a1]
    simp only [handler.called, handler.writeNodes, handler.writeContainers,
      MetricMap.putAll_putAll]
  · rw [a2, a1]
    simp only [handler.called, handler.writeNodes, handler.writeContainers,
      MetricMap.putAll_putAll]
  · rw [a2, a1]
    simp only [handler.called, handler.writeNodes, handler.writeContainers,
      MetricMap.putAll_putAll]
  · rw [a2, a1]
    simp only [handler.called, handler.writeNodes, handler.writeContainers,
      MetricMap.putAll_putAll]
  · intro hv hpv
    have hv1 := nodesValid_of_forall _ hv
    have hpv1 := podsValid_of_forall _ hpv
    have r1 := ServeHTTP_ok lib h hw ResponseWriter.fresh request nodeMetrics podMetrics
      hn hv1 hp hpv1
    have r2 := ServeHTTP_ok lib h1 hw1 ResponseWriter.fresh request2 nodeMetrics podMetrics
      (hn1.trans hn) hv1 ((congrFun hp1 "").trans hp) hpv1
    exact ⟨_, _, eq_ok_of_after _ _ _ r1 h1 e1, eq_ok_of_after _ _ _ r2 h2 e2⟩

/-- C9: whatever the outcome of the two listings, and whether `ServeHTTP` returns or
panics, the request removes nothing: a tuple that is not the name of a node listed in this
request has the same entry (present with the same value, or absent) in both node gauges as
before; a tuple that is not the (namespace, pod, container) of a container listed in this
request has the same entry in both container gauges as before; and every tuple a gauge
held before is still held. When all listed names are valid UTF-8 the request returns. -/
theorem C9_no_removal (lib : Lib Q F R) (h : handler Q F) (hw : h.Wired) (request : R)
    (h1 : handler Q F)
    (e1 : h1 = handlerAfter (h.ServeHTTP lib ResponseWriter.fresh request)) :
    (∀ k : LabelValues,
      (∀ nodeMetrics, h.clientset.nodes = .ok nodeMetrics →
        ∀ node ∈ nodeMetrics.Items, k ≠ [node.Name]) →
      h1.nodeCPUGauge.metrics.lookup k = h.nodeCPUGauge.metrics.lookup k ∧
      h1.nodeMemoryGauge.metrics.lookup k = h.nodeMemoryGauge.metrics.lookup k) ∧
    (∀ k : LabelValues,
      (∀ nodeMetrics podMetrics, h.clientset.nodes = .ok nodeMetrics →
        h.clientset.pods "" = .ok podMetrics →
        ∀ pod ∈ podMetrics.Items, ∀ c ∈ pod.Containers,
          k ≠ [pod.Namespace, pod.Name, c.Name]) →
      h1.containerCPUGauge.metrics.lookup k = h.containerCPUGauge.metrics.lookup k ∧
      h1.containerMemoryGauge.metrics.lookup k =
        h.containerMemoryGauge.metrics.lookup k) ∧
    (∀ k ∈ h.nodeCPUGauge.metrics.keys, k ∈ h1.nodeCPUGauge.metrics.keys) ∧
    (∀ k ∈ h.nodeMemoryGauge.metrics.keys, k ∈ h1.nodeMemoryGauge.metrics.keys) ∧
    (∀ k ∈ h.containerCPUGauge.metrics.keys, k ∈ h1.containerCPUGauge.metrics.keys) ∧
    (∀ k ∈ h.containerMemoryGauge.metrics.keys,
      k ∈ h1.containerMemoryGauge.metrics.keys) ∧
    ((∀ nodeMetrics, h.clientset.nodes = .ok nodeMetrics →
        ∀ node ∈ nodeMetrics.Items, ValidString node.Name = true) →
      (∀ nodeMetrics podMetrics, h.clientset.nodes = .ok nodeMetrics →
        h.clientset.pods "" = .ok podMetrics →
        ∀ pod ∈ podMetrics.Items, ∀ c ∈ pod.Containers,
          ValidString pod.Namespace = true ∧ ValidString pod.Name = true ∧
            ValidString c.Name = true) →
      ∃ w, h.ServeHTTP lib ResponseWriter.fresh request = .ok (h1, w)) := by
  obtain ⟨calls, a1⟩ := ServeHTTP_after lib h hw ResponseWriter.fresh request
  rw [← e1] at a1
  have nodeFrame : ∀ k : LabelValues,
      (∀ nodeMetrics, h.clientset.nodes = .ok nodeMetrics →
        ∀ node ∈ nodeMetrics.Items, k ≠ [node.Name]) →
      k ∉ nodeKeys (scrapedNodes h.clientset) := by
    intro k hk hmem
    cases hn : h.clientset.nodes with
    | error e =>
      rw [scrapedNodes_of_error _ e hn] at hmem
      simp [nodeKeys] at hmem
    | ok nodeMetrics =>
      obtain ⟨node, hnode, heq⟩ :=
        mem_nodeKeys.mp (scrapedNodes_subset _ nodeMetrics hn k hmem)
      exact hk nodeMetrics hn node hnode heq
  have podFrame : ∀ k : LabelValues,
      (∀ nodeMetrics podMetrics, h.clientset.nodes = .ok nodeMetrics →
        h.clientset.pods "" = .ok podMetrics →
        ∀ pod ∈ podMetrics.Items, ∀ c ∈ pod.Containers,
          k ≠ [pod.Namespace, pod.Name, c.Name]) →
      k ∉ containerKeys (scrapedPods h.clientset) := by
    intro k hk hmem
    cases hn : h.clientset.nodes with
    | error e =>
      rw [scrapedPods_of_nodes_error _ e hn] at hmem
      simp [containerKeys] at hmem
    | ok nodeMetrics =>
      cases hp : h.clientset.pods "" with
      | error e =>
        rw [scrapedPods_of_pods_error _ e hp] at hmem
        simp [containerKeys] at hmem
      | ok podMetrics =>
        obtain ⟨pod, hpod, c, hc, heq⟩ :=
          mem_containerKeys.mp (scrapedPods_subset _ podMetrics hp k hmem)
        exact hk nodeMetrics podMetrics hn hp pod hpod c hc heq
  refine ⟨?_, ?_, ?_, ?_, ?_, ?_, ?_⟩
  · intro k hk
    have hnot := nodeFrame k hk
    have l1 : lastWrite k (nodeCPUWrites lib (scrapedNodes h.clientset)) = none :=
      lastWrite_eq_none.mpr (by rw [map_fst_nodeCPUWrites]; exact hnot)
    have l2 : lastWrite k (nodeMemoryWrites lib (scrapedNodes h.clientset)) = none :=
      lastWrite_eq_none.mpr (by rw [map_fst_nodeMemoryWrites]; exact hnot)
    rw [a1]
    simp only [handler.called, handler.writeNodes, handler.writeContainers]
    rw [MetricMap.lookup_putAll, MetricMap.lookup_putAll, l1, l2]
    exact ⟨rfl, rfl⟩
  · intro k hk
    have hnot := podFrame k hk
    have l1 : lastWrite k (containerCPUWrites lib (scrapedPods h.clientset)) = none :=
      lastWrite_eq_none.mpr (by rw [map_fst_containerCPUWrites]; exact hnot)
    have l2 : lastWrite k (containerMemoryWrites lib (scrapedPods h.clientset)) = none :=
      lastWrite_eq_none.mpr (by rw [map_fst_containerMemoryWrites]; exact hnot)
    rw [a1]
    simp only [handler.called, handler.writeNodes, handler.writeContainers]
    rw [MetricMap.lookup_putAll, MetricMap.lookup_putAll, l1, l2]
    exact ⟨rfl, rfl⟩
  · intro k hk
    rw [a1]
    exact (MetricMap.mem_keys_putAll k _ _).mpr (Or.inr hk)
  · intro k hk
    rw [a1]
    exact (MetricMap.mem_keys_putAll k _ _).mpr (Or.inr hk)
  · intro k hk
    rw [a1]
    exact (MetricMap.mem_keys_putAll k _ _).mpr (Or.inr hk)
  · intro k hk
    rw [a1]
    exact (MetricMap.mem_keys_putAll k _ _).mpr (Or.inr hk)
  · intro hv hpv
    cases hn : h.clientset.nodes with
    | error e =>
      have r := ServeHTTP_nodes_error lib h ResponseWriter.fresh request e hn
      exact ⟨_, eq_ok_of_after _ _ _ r h1 e1⟩
    | ok nodeMetrics =>
      have hv1 := nodesValid_of_forall _ (hv nodeMetrics hn)
      cases hp : h.clientset.pods "" with
      | error e =>
        have r := ServeHTTP_pods_error lib h hw ResponseWriter.fresh request nodeMetrics e
          hn hv1 hp
        exact ⟨_, eq_ok_of_after _ _ _ r h1 e1⟩
      | ok podMetrics =>
        have hpv1 := podsValid_of_forall _ (hpv nodeMetrics podMetrics hn hp)
        have r := ServeHTTP_ok lib h hw ResponseWriter.fresh request nodeMetrics podMetrics
          hn hv1 hp hpv1
        exact ⟨_, eq_ok_of_after _ _ _ r h1 e1⟩

/-- C10: for a handler wired as in `main`, the label names passed to every `With` call of
`ServeHTTP` are the label names the gauge was declared with (`node` for the two node
gauges; `namespace`, `pod`, `container` for the two container gauges): the label count
matches and the lookup of every declared name in the supplied labels succeeds, for every
node name and every namespace, pod and container name. So a `With` call in the node loop,
in the container loop or anywhere in `ServeHTTP` never panics on a label-count or a
label-name mismatch; the one error it can raise is the UTF-8 error on a label value, and
with valid values it returns the child. -/
theorem C10_labels_agree (lib : Lib Q F R) (h : handler Q F) (hw : h.Wired)
    (writer : ResponseWriter) (request : R) :
    (∀ node : NodeMetrics Q,
      ([("node", node.Name)] : Labels).map Prod.fst = h.nodeCPUGauge.variableLabels ∧
      ([("node", node.Name)] : Labels).map Prod.fst = h.nodeMemoryGauge.variableLabels ∧
      labelValuesInOrder [("node", node.Name)] h.nodeCPUGauge.variableLabels
        = .ok [node.Name] ∧
      labelValuesInOrder [("node", node.Name)] h.nodeMemoryGauge.variableLabels
        = .ok [node.Name] ∧
      (∀ e, h.nodeCPUGauge.With [("node", node.Name)] = .error e →
        e = LabelError.invalidUTF8 ∧ ValidString node.Name = false) ∧
      (∀ e, h.nodeMemoryGauge.With [("node", node.Name)] = .error e →
        e = LabelError.invalidUTF8 ∧ ValidString node.Name = false) ∧
      (∀ p, nodeStep lib h node = .error p →
        p.err = LabelError.invalidUTF8 ∧ ValidString node.Name = false)) ∧
    (∀ (pod : PodMetrics Q) (c : ContainerMetrics Q),
      ([("namespace", pod.Namespace), ("pod", pod.Name), ("container", c.Name)] :
          Labels).map Prod.fst = h.containerCPUGauge.variableLabels ∧
      ([("namespace", pod.Namespace), ("pod", pod.Name), ("container", c.Name)] :
          Labels).map Prod.fst = h.containerMemoryGauge.variableLabels ∧
      labelValuesInOrder
          [("namespace", pod.Namespace), ("pod", pod.Name), ("container", c.Name)]
          h.containerCPUGauge.variableLabels = .ok [pod.Namespace, pod.Name, c.Name] ∧
      labelValuesInOrder
          [("namespace", pod.Namespace), ("pod", pod.Name), ("container", c.Name)]
          h.containerMemoryGauge.variableLabels = .ok [pod.Namespace, pod.Name, c.Name] ∧
      (∀ e, h.containerCPUGauge.With
          [("namespace", pod.Namespace), ("pod", pod.Name), ("container", c.Name)]
            = .error e →
        e = LabelError.invalidUTF8 ∧ validContainer pod c = false) ∧
      (∀ e, h.containerMemoryGauge.With
          [("namespace", pod.Namespace), ("pod", pod.Name), ("container", c.Name)]
            = .error e →
        e = LabelError.invalidUTF8 ∧ validContainer pod c = false) ∧
      (∀ p, containerStep lib pod h c = .error p →
        p.err = LabelError.invalidUTF8 ∧ validContainer pod c = false)) ∧
    (∀ p, h.ServeHTTP lib writer request = .error p → p.err = LabelError.invalidUTF8) := by
  have hw0 := hw
  obtain ⟨hreg, h1, h2, h3, h4⟩ := hw
  have nodeWith : ∀ (v : GaugeVec F), v.variableLabels = ["node"] →
      ∀ (name : GoString) (e : LabelError), v.With [("node", name)] = .error e →
      e = LabelError.invalidUTF8 ∧ ValidString name = false := by
    intro v hv name e he
    rw [With_node v hv name] at he
    by_cases hvalid : ValidString name = true
    · rw [if_pos hvalid] at he
      exact Except.noConfusion he
    · rw [if_neg hvalid] at he
      exact ⟨(Except.error.inj he).symm, by simpa using hvalid⟩
  have containerWith : ∀ (v : GaugeVec F),
      v.variableLabels = ["namespace", "pod", "container"] →
      ∀ (pod : PodMetrics Q) (c : ContainerMetrics Q) (e : LabelError),
      v.With [("namespace", pod.Namespace), ("pod", pod.Name), ("container", c.Name)]
        = .error e →
      e = LabelError.invalidUTF8 ∧ validContainer pod c = false := by
    intro v hv pod c e he
    rw [With_container v hv pod.Namespace pod.Name c.Name] at he
    by_cases hvalid : (ValidString pod.Namespace && ValidString pod.Name &&
        ValidString c.Name) = true
    · rw [if_pos hvalid] at he
      exact Except.noConfusion he
    · rw [if_neg hvalid] at he
      refine ⟨(Except.error.inj he).symm, ?_⟩
      unfold validContainer
      simpa using hvalid
  refine ⟨?_, ?_, fun p hs => ServeHTTP_panic_err lib h hw0 writer request p hs⟩
  · intro node
    refine ⟨h1.symm, h2.symm, ?_, ?_, nodeWith _ h1 node.Name, nodeWith _ h2 node.Name, ?_⟩
    · rw [h1]
      simp [newHandler, NewGaugeVec, labelValuesInOrder, Labels.get?]
    · rw [h2]
      simp [newHandler, NewGaugeVec, labelValuesInOrder, Labels.get?]
    · intro p hp
      rw [nodeStep_eq lib h hw0 node] at hp
      by_cases hvalid : validNode node = true
      · rw [if_pos hvalid] at hp
        exact Except.noConfusion hp
      · rw [if_neg hvalid] at hp
        refine ⟨?_, ?_⟩
        · rw [← Except.error.inj hp]
        · unfold validNode at hvalid
          simpa using hvalid
  · intro pod c
    refine ⟨h3.symm, h4.symm, ?_, ?_, containerWith _ h3 pod c, containerWith _ h4 pod c,
      ?_⟩
    · rw [h3]
      simp [newHandler, NewGaugeVec, labelValuesInOrder, Labels.get?]
    · rw [h4]
      simp [newHandler, NewGaugeVec, labelValuesInOrder, Labels.get?]
    · intro p hp
      rw [containerStep_eq lib pod h hw0 c] at hp
      by_cases hvalid : validContainer pod c = true
      · rw [if_pos hvalid] at hp
        exact Except.noConfusion hp
      · rw [if_neg hvalid] at hp
        refine ⟨?_, ?_⟩
        · rw [← Except.error.inj hp]
        · simpa using hvalid

end Claims

/-! ## The claims on the sample data -/

/-- C1 on the stale handler with the node listing down: status 500, the error text as body,
one request sent, the stale entries untouched. -/
theorem C1_witness :
    ∃ h1 w, nodesDownHandler.ServeHTTP demoLib ResponseWriter.fresh () = .ok (h1, w) ∧
      w.status = some 500 ∧ w.body = "metrics API unavailable" ∧
      h1.clientset.calls = [ApiCall.NodeMetricsesList] ∧
      h1.nodeCPUGauge = nodesDownHandler.nodeCPUGauge ∧
      h1.nodeMemoryGauge = nodesDownHandler.nodeMemoryGauge ∧
      h1.containerCPUGauge = nodesDownHandler.containerCPUGauge ∧
      h1.containerMemoryGauge = nodesDownHandler.containerMemoryGauge :=
  C1_node_listing_failure demoLib nodesDownHandler ()
    { Error := "metrics API unavailable" } rfl

/-- C2 (amended) on the stale handler with the pod listing down: status 500, while
`worker-1` now reads 3 cores and 5e9 bytes and the container gauges are untouched. -/
theorem C2_witness :
    ∃ h1 w, podsDownHandler.ServeHTTP demoLib ResponseWriter.fresh () = .ok (h1, w) ∧
      w.status = some 500 ∧ w.body = "pods: forbidden" ∧
      h1.nodeCPUGauge.metrics.lookup [GoString.ofASCII "worker-1"] = some 3 ∧
      h1.nodeMemoryGauge.metrics.lookup [GoString.ofASCII "worker-1"] = some 5000000000 ∧
      podsDownHandler.nodeCPUGauge.metrics.lookup [GoString.ofASCII "worker-1"]
        = some (5 / 2) ∧
      h1.containerCPUGauge = podsDownHandler.containerCPUGauge ∧
      h1.containerMemoryGauge = podsDownHandler.containerMemoryGauge := by
  obtain ⟨h1, w, he, hs, hb, hl, hc1, hc2⟩ :=
    C2_pod_listing_failure demoLib podsDownHandler (by decide) ()
      { Items := [worker1Busy] } { Error := "pods: forbidden" } rfl (by decide) rfl
  have hv := hl [] worker1Busy [] rfl (by simp)
  exact ⟨h1, w, he, hs, hb, hv.1, hv.2, rfl, hc1, hc2⟩

/-- C3 (amended) on the sample upstream: both listings succeed with valid names, the answer
is 200 and its body is the encoding of the four gauges after the request. -/
theorem C3_witness :
    ∃ h1 w, (newHandler demoUpstream : handler ℚ ℚ).ServeHTTP demoLib ResponseWriter.fresh ()
        = .ok (h1, w) ∧
      w.status = some 200 ∧
      w.body = demoLib.encode ()
        [h1.nodeCPUGauge, h1.nodeMemoryGauge, h1.containerCPUGauge,
          h1.containerMemoryGauge] := by
  obtain ⟨h200, -, -, -, hbody⟩ :=
    C3_success_iff_listings_and_names demoLib (newHandler demoUpstream : handler ℚ ℚ)
      (by decide) ()
  obtain ⟨h1, w, he, hs⟩ :=
    h200.mpr ⟨{ Items := [worker1] }, { Items := [app1] }, rfl, rfl, by decide, by decide⟩
  exact ⟨h1, w, he, hs, (hbody h1 w he hs).1⟩

/-- C4 (amended) on the sample upstream: the node `worker-1` with 2.5 cores and 4e9 bytes
gives node-CPU[worker-1] = 2.5 and node-memory[worker-1] = 4e9. -/
theorem C4_witness :
    demoAfterOne.nodeCPUGauge.metrics.lookup [GoString.ofASCII "worker-1"] = some (5 / 2) ∧
    demoAfterOne.nodeMemoryGauge.metrics.lookup [GoString.ofASCII "worker-1"]
      = some 4000000000 := by
  obtain ⟨hN, -, hl⟩ :=
    C4_node_gauges_hold_listed_usage demoLib (newHandler demoUpstream : handler ℚ ℚ)
      (by decide) () { Items := [worker1] } rfl (by decide)
  have hv := hl [] worker1 [] rfl (by simp)
  exact ⟨hv.2.2.1, hv.2.2.2⟩

/-- C5 (amended) on the sample upstream: the container `main` of `default/app-1` with 0.1
cores and 1e8 bytes gives container-CPU = 0.1 and container-memory = 1e8 at that tuple. -/
theorem C5_witness :
    ∃ h1 w, (newHandler demoUpstream : handler ℚ ℚ).ServeHTTP demoLib ResponseWriter.fresh ()
        = .ok (h1, w) ∧
      h1.containerCPUGauge.metrics.lookup
        [GoString.ofASCII "default", GoString.ofASCII "app-1", GoString.ofASCII "main"]
        = some (1 / 10) ∧
      h1.containerMemoryGauge.metrics.lookup
        [GoString.ofASCII "default", GoString.ofASCII "app-1", GoString.ofASCII "main"]
        = some 100000000 := by
  obtain ⟨h1, w, he, hl, -⟩ :=
    C5_container_gauges_hold_listed_usage demoLib (newHandler demoUpstream : handler ℚ ℚ)
      (by decide) () { Items := [worker1] } { Items := [app1] } rfl rfl
      (by decide) (by decide)
  have hv := hl [] app1 [] [] mainContainer [] rfl rfl (by simp) (by simp)
  exact ⟨h1, w, he, hv.1, hv.2⟩

/-- C6 (amended) on the stale handler: one entry before, one new node name, two entries
after. -/
theorem C6_witness :
    ∃ h1 w, staleHandler.ServeHTTP demoLib ResponseWriter.fresh () = .ok (h1, w) ∧
      w.status = some 200 ∧
      h1.nodeCPUGauge.metrics.length =
        1 + (([worker2].map (fun node => [node.Name])).toFinset \
          [[GoString.ofASCII "worker-1"]].toFinset).card := by
  obtain ⟨h1, w, he, hs, hlen, -⟩ :=
    C6_node_entry_count demoLib staleHandler (by decide) ()
      { Items := [worker2] } { Items := [] } rfl rfl (by decide) (by decide)
  exact ⟨h1, w, he, hs, hlen⟩

/-- C7 (amended) on the sample upstream, from empty gauges: one pod with one container,
one entry in each container gauge. -/
theorem C7_witness :
    ∃ h1 w, (newHandler demoUpstream : handler ℚ ℚ).ServeHTTP demoLib ResponseWriter.fresh ()
        = .ok (h1, w) ∧
      w.status = some 200 ∧
      h1.containerCPUGauge.metrics.length = 1 ∧
      h1.containerMemoryGauge.metrics.length = 1 := by
  obtain ⟨h1, w, he, hs, -, -, hsum⟩ :=
    C7_container_entry_count demoLib (newHandler demoUpstream : handler ℚ ℚ)
      (by decide) () { Items := [worker1] } { Items := [app1] } rfl rfl
      (by decide) (by decide)
  have hv := hsum (by decide)
  exact ⟨h1, w, he, hs, hv.1 rfl, hv.2 rfl⟩

/-- C8 on the sample upstream: two requests in a row return and leave the same four
gauges. -/
theorem C8_witness :
    demoAfterTwo.nodeCPUGauge = demoAfterOne.nodeCPUGauge ∧
    demoAfterTwo.nodeMemoryGauge = demoAfterOne.nodeMemoryGauge ∧
    demoAfterTwo.containerCPUGauge = demoAfterOne.containerCPUGauge ∧
    demoAfterTwo.containerMemoryGauge = demoAfterOne.containerMemoryGauge ∧
    ∃ w1 w2,
      (newHandler demoUpstream : handler ℚ ℚ).ServeHTTP demoLib ResponseWriter.fresh ()
        = .ok (demoAfterOne, w1) ∧
      demoAfterOne.ServeHTTP demoLib ResponseWriter.fresh () = .ok (demoAfterTwo, w2) := by
  obtain ⟨-, -, g1, g2, g3, g4, hret⟩ :=
    C8_scrape_idempotent demoLib (newHandler demoUpstream : handler ℚ ℚ) (by decide) () ()
      { Items := [worker1] } { Items := [app1] } rfl rfl demoAfterOne demoAfterTwo rfl rfl
  exact ⟨g1, g2, g3, g4, hret (by decide) (by decide)⟩

/-- C9 on the stale handler: `worker-1` and `default/app-1/main`, scraped one request
earlier and absent from this listing, keep their values. -/
theorem C9_witness :
    staleAfter.nodeCPUGauge.metrics.lookup [GoString.ofASCII "worker-1"] = some (5 / 2) ∧
    staleAfter.nodeMemoryGauge.metrics.lookup [GoString.ofASCII "worker-1"]
      = some 4000000000 ∧
    staleAfter.containerCPUGauge.metrics.lookup
      [GoString.ofASCII "default", GoString.ofASCII "app-1", GoString.ofASCII "main"]
      = some (1 / 10) ∧
    staleAfter.containerMemoryGauge.metrics.lookup
      [GoString.ofASCII "default", GoString.ofASCII "app-1", GoString.ofASCII "main"]
      = some 100000000 := by
  obtain ⟨hnode, hpod, -⟩ :=
    C9_no_removal demoLib staleHandler (by decide) () staleAfter rfl
  have hn := hnode [GoString.ofASCII "worker-1"] (by
    intro nodeMetrics hnm node hmem
    have hitems : nodeMetrics = { Items := [worker2] } := (Except.ok.inj hnm).symm
    subst hitems
    simp only [List.mem_singleton] at hmem
    subst hmem
    decide)
  have hp := hpod
    [GoString.ofASCII "default", GoString.ofASCII "app-1", GoString.ofASCII "main"] (by
    intro nodeMetrics podMetrics _ hpm pod hmem
    have hitems : podMetrics = { Items := [] } := (Except.ok.inj hpm).symm
    subst hitems
    simp at hmem)
  exact ⟨hn.1.trans rfl, hn.2.trans rfl, hp.1.trans rfl, hp.2.trans rfl⟩

/-- C10 on the handler of `main`: the label lookup for the node `badName` succeeds, and the
panic of the request that lists it carries the UTF-8 error, not a label-count or label-name
error. -/
theorem C10_witness :
    labelValuesInOrder [("node", badNode.Name)]
        (newHandler badNodeUpstream : handler ℚ ℚ).nodeCPUGauge.variableLabels
      = .ok [badNode.Name] ∧
    ∀ p, (newHandler badNodeUpstream : handler ℚ ℚ).ServeHTTP demoLib ResponseWriter.fresh ()
      = .error p → p.err = LabelError.invalidUTF8 := by
  obtain ⟨hnode, -, hpanic⟩ :=
    C10_labels_agree demoLib (newHandler badNodeUpstream : handler ℚ ℚ) (by decide)
      ResponseWriter.fresh ()
  exact ⟨(hnode badNode).2.2.1, hpanic⟩

end MetricsServerExporter
